import Mathlib

/-!
Verification of the document reconstruction and position-reconciliation engine
of the `translator` repository, as a shallow embedding in Lean 4.

Python floats are modelled as rationals, Python ints as `Int`/`Nat`,
`None`-able values as `Option`, and Python lists as `List`.  Functions are
translated branch-for-branch from the Python sources named in each
doc comment.
-/

set_option maxHeartbeats 1000000
set_option linter.unusedVariables false

namespace Translator

/-- `FormattingSegment` dataclass of `formatting_processor.py` (lines 15-27):
a contiguous span of text with one set of run-style attributes.  Font sizes
(Python floats, points) are modelled as rationals. -/
structure FormattingSegment where
  text : String
  bold : Option Bool := none
  italic : Option Bool := none
  underline : Option Bool := none
  font_name : Option String := none
  font_size : Option ℚ := none
  font_color : Option String := none
  start_pos : Nat := 0
  end_pos : Nat := 0
  deriving Repr, DecidableEq, Inhabited

/-- The five style attributes `_get_most_common_style` records per dictionary
entry: bold, italic, underline, font name and font size. -/
abbrev StyleAttrs := Option Bool × Option Bool × Option Bool × Option String × Option ℚ

/-- Python whitespace as used by `str.strip()` and the regex class `\s`
(space, tab, newline, carriage return, vertical tab, form feed). -/
def isPySpace (c : Char) : Bool :=
  c = ' ' ∨ c = '\t' ∨ c = '\n' ∨ c = '\r' ∨ c = '\x0b' ∨ c = '\x0c'

/-- Python `str.strip()`: remove leading and trailing whitespace. -/
def pyStrip (s : String) : String :=
  String.mk (((s.data.dropWhile isPySpace).reverse.dropWhile isPySpace).reverse)

/-- The five style attributes of one segment, in source field order. -/
def styleAttrs (s : FormattingSegment) : StyleAttrs :=
  (s.bold, s.italic, s.underline, s.font_name, s.font_size)

/-- Python `str()` of an `Optional[bool]`, as rendered inside an f-string. -/
def pyStrOfOptBool (b : Option Bool) : String :=
  match b with
  | none => "None"
  | some true => "True"
  | some false => "False"

/-- Python `str()` of an `Optional[str]` inside an f-string: `None` renders
as the four characters "None", which a literal font name "None" also renders
as - the rendering is not injective. -/
def pyStrOfOptStr (s : Option String) : String :=
  match s with
  | none => "None"
  | some s => s

/-- Floor of a rational as an integer (`Int.fdiv` floors and rational
denominators are positive). -/
def ratFloor (q : ℚ) : Int :=
  Int.fdiv q.num (q.den : Int)

/-- Fractional decimal digits of a rational in `[0, 1)`, most significant
first, up to the given fuel. -/
def fracDigits : Nat → ℚ → List Char
  | 0, _ => []
  | fuel + 1, q =>
    let q10 := q * 10
    let d := ratFloor q10
    Char.ofNat (48 + Int.toNat d) :: fracDigits fuel (q10 - (d : ℚ))

/-- Python `str()` of a float font size, modelled on the float's exact
rational value: sign, integer part, a dot, and the fractional digits with
trailing zeros trimmed (keeping at least one digit).  This agrees with
Python's shortest-round-trip rendering on the exactly representable decimal
sizes that occur in documents ("12.0", "10.5", "0.25"); no theorem in this
file depends on the rendering of any particular size. -/
def pyFloatStr (q : ℚ) : String :=
  let sign := if q < 0 then "-" else ""
  let a : ℚ := |q|
  let ip := ratFloor a
  let ds := fracDigits 17 (a - (ip : ℚ))
  let trimmed := (ds.reverse.dropWhile (fun c => c = '0')).reverse
  let fracStr := if trimmed.isEmpty then "0" else String.mk trimmed
  sign ++ toString ip ++ "." ++ fracStr

/-- Python `str()` of an `Optional[float]` inside an f-string. -/
def pyStrOfOptFloat (q : Option ℚ) : String :=
  match q with
  | none => "None"
  | some q => pyFloatStr q

/-- The dictionary key of one segment in `_get_most_common_style`:
`f"{segment.bold}_{segment.italic}_{segment.underline}_{segment.font_name}_{segment.font_size}"`
(`formatting_processor.py` line 340).  The underscore-joined STRING rendering
is not injective on attribute combinations: a font name that is literally
"None" renders exactly like an absent font name, so distinct combinations
can share one key. -/
def styleKey (s : FormattingSegment) : String :=
  pyStrOfOptBool s.bold ++ "_" ++ pyStrOfOptBool s.italic ++ "_" ++
    pyStrOfOptBool s.underline ++ "_" ++ pyStrOfOptStr s.font_name ++ "_" ++
    pyStrOfOptFloat s.font_size

/-- One step of building the `styles` dictionary of `_get_most_common_style`
(`formatting_processor.py` lines 339-350): bump the count of the segment's
rendered string key, or insert a fresh entry with count 1 carrying THIS
segment's five attributes (each entry keeps the attributes of the first
segment inserted under its key). -/
def countStep (d : List (String × Nat × StyleAttrs)) (s : FormattingSegment) :
    List (String × Nat × StyleAttrs) :=
  if d.any (fun e => e.1 = styleKey s) then
    d.map (fun e => if e.1 = styleKey s then (e.1, e.2.1 + 1, e.2.2) else e)
  else d ++ [(styleKey s, 1, styleAttrs s)]

/-- The `styles` dictionary built by `_get_most_common_style`
(`formatting_processor.py` lines 337-350): an insertion-ordered map from
rendered string key to occurrence count and first-inserted attributes.
Python dicts preserve insertion order, so the map is modelled as an
association list in first-occurrence order. -/
def buildStyleCounts (segments : List FormattingSegment) :
    List (String × Nat × StyleAttrs) :=
  segments.foldl countStep []

/-- One comparison step of Python `max(..., key=lambda x: x['count'])`:
keep the current best, replacing it only on a strictly greater count. -/
def pyMaxStep (acc : Option (String × Nat × StyleAttrs)) (e : String × Nat × StyleAttrs) :
    Option (String × Nat × StyleAttrs) :=
  match acc with
  | none => some e
  | some b => if e.2.1 > b.2.1 then some e else some b

/-- Python `max(styles.values(), key=lambda x: x['count'])`
(`formatting_processor.py` line 353): scans the values in insertion order, so
ties are broken in favour of the earliest-inserted entry. -/
def pyMaxByCount (l : List (String × Nat × StyleAttrs)) :
    Option (String × Nat × StyleAttrs) :=
  l.foldl pyMaxStep none

/-- `FormattingProcessor._get_most_common_style` (`formatting_processor.py`
lines 335-354): the attributes stored in the winning dictionary entry.  The
Python code raises on an empty segment list (its only caller guards with more
than three segments); the default value is never used under that guard. -/
def get_most_common_style (segments : List FormattingSegment) : StyleAttrs :=
  ((pyMaxByCount (buildStyleCounts segments)).map (fun e => e.2.2)).getD
    (none, none, none, none, none)

/-- `FormattingProcessor.map_conservative_formatting_to_translation`
(`formatting_processor.py` lines 292-333), the translation-mapping step the
document reconstruction actually invokes (`document_processor.py` line 956).
The `original_text` argument is accepted but, as in the source, never used. -/
def map_conservative_formatting_to_translation (original_segments : List FormattingSegment)
    (original_text translated_text : String) : List FormattingSegment :=
  if original_segments.isEmpty ∨ pyStrip translated_text = "" then
    [{ text := translated_text, start_pos := 0, end_pos := translated_text.length }]
  else if original_segments.length > 3 then
    let mcs := get_most_common_style original_segments
    [{ text := translated_text, bold := mcs.1, italic := mcs.2.1, underline := mcs.2.2.1,
       font_name := mcs.2.2.2.1, font_size := mcs.2.2.2.2, font_color := none,
       start_pos := 0, end_pos := translated_text.length }]
  else
    let base := original_segments.headD default
    [{ text := translated_text, bold := base.bold, italic := base.italic,
       underline := base.underline, font_name := base.font_name, font_size := base.font_size,
       font_color := none, start_pos := 0, end_pos := translated_text.length }]

/-- Concatenation of the `text` fields of a segment list, in order. -/
def concatSegmentTexts (segments : List FormattingSegment) : String :=
  String.join (segments.map (fun s => s.text))

/-- Number of occurrences of a rendered style key in a key list
(specification-side notion of the frequency of a rendered-key group). -/
def countKey (keys : List String) (k : String) : Nat :=
  (keys.filter (fun x => x = k)).length

/-- One step of collecting distinct keys in first-occurrence order. -/
def uniqueStep (acc : List String) (k : String) : List String :=
  if k ∈ acc then acc else acc ++ [k]

/-- The distinct keys of a list, in order of first occurrence
(specification-side notion of the insertion order of the Python dict). -/
def uniqueInOrder (keys : List String) : List String :=
  keys.foldl uniqueStep []

/-- One step of the specification-side maximum: replace the current best key
only when the candidate occurs strictly more often in `keys`. -/
def specMaxStep (keys : List String) (best : Option String) (k : String) : Option String :=
  match best with
  | none => some k
  | some b => if countKey keys k > countKey keys b then some k else best

/-- Specification-side reading of the selection `_get_most_common_style`
makes: walk the distinct rendered keys in first-occurrence order and keep
the first one whose occurrence count is strictly maximal among keys seen so
far (most frequent rendered-key group, ties broken in favour of the
first-encountered group). -/
def firstMostFrequent (keys : List String) : Option String :=
  (uniqueInOrder keys).foldl (specMaxStep keys) none

/-- The attributes of the first segment whose rendered key is `k`
(specification-side reading of the attributes a dictionary entry carries). -/
def firstAttrsWithKey (segments : List FormattingSegment) (k : String) : StyleAttrs :=
  ((segments.find? (fun s => styleKey s = k)).map styleAttrs).getD
    (none, none, none, none, none)

/-- Specification-side closed form of the `styles` dictionary: the distinct
rendered keys in first-occurrence order, each with its occurrence count and
the attributes of its first segment. -/
def dictOfSegments (segments : List FormattingSegment) :
    List (String × Nat × StyleAttrs) :=
  (uniqueInOrder (segments.map styleKey)).map
    (fun k => (k, countKey (segments.map styleKey) k, firstAttrsWithKey segments k))

/-- Concrete input for claim C3: two original segments of equal length with
different bold attributes, original text of length 4, translated text of
length 4.  Proportional remapping would give each segment a two-character
share of the translation. -/
def cexC3segs : List FormattingSegment :=
  [{ text := "ab", bold := some true, start_pos := 0, end_pos := 2 },
   { text := "cd", bold := some false, start_pos := 2, end_pos := 4 }]

/-- Concrete input for claim C8: four segments whose attribute combinations
are (no attributes) once, (font name "None") once and (bold) twice.  The
rendered string key merges the first two combinations - an absent font name
and the literal font name "None" both render "None" - so the merged group
counts 2, ties with the bold group, and the tie-break returns the FIRST
merged segment's attributes (no attributes at all), even though the bold
combination is the unique most frequent attribute combination. -/
def cexC8segs : List FormattingSegment :=
  [{ text := "a", start_pos := 0, end_pos := 1 },
   { text := "b", font_name := some "None", start_pos := 1, end_pos := 2 },
   { text := "c", bold := some true, start_pos := 2, end_pos := 3 },
   { text := "d", bold := some true, start_pos := 3, end_pos := 4 }]

/-- Concrete input for the C8 witness and the blank-translation conjunct of
the counterexample: four original segments, all bold. -/
def wC8segs : List FormattingSegment :=
  [{ text := "a", bold := some true, start_pos := 0, end_pos := 1 },
   { text := "b", bold := some true, start_pos := 1, end_pos := 2 },
   { text := "c", bold := some true, start_pos := 2, end_pos := 3 },
   { text := "d", bold := some true, start_pos := 3, end_pos := 4 }]

/-- `ImageInfo` dataclass of `improved_image_processor.py` (lines 22-33): one
extracted embedded asset.  `width`/`height` are Python floats in inches,
modelled as rationals; `image_data` is the raw byte string. -/
structure ImageInfo where
  image_id : String
  image_data : List Nat
  image_format : String
  width : Option ℚ := none
  height : Option ℚ := none
  paragraph_index : Option Int := none
  rel_id : Option String := none
  filename : Option String := none
  deriving Repr, DecidableEq, Inhabited

/-- `ImageElement` dataclass of `improved_image_processor.py` (lines 35-46):
the legacy-compatible image record used by `document_processor.py`.
`width`/`height` are Python ints (pixels). -/
structure ImageElement where
  image_id : String
  image_data : List Nat
  image_format : String
  width : Option Int := none
  height : Option Int := none
  paragraph_index : Option Int := none
  is_inline : Bool := true
  description : Option String := none
  alt_text : Option String := none
  deriving Repr, DecidableEq, Inhabited

/-- Python `int(x)` on a float: truncation toward zero, modelled on exact
rationals (`Int.tdiv` truncates toward zero and rational denominators are
positive). -/
def pyIntOfRat (q : ℚ) : Int :=
  Int.tdiv q.num (q.den : Int)

/-- `ImageAdapter.convert_to_image_element` (`image_adapter.py` lines 12-36).
`int(image_info.width * 96) if image_info.width else None`: the Python
truthiness test maps both `None` and `0.0` to `None`. -/
def convert_to_image_element (info : ImageInfo) : ImageElement :=
  { image_id := info.image_id
    image_data := info.image_data
    image_format := info.image_format
    width :=
      match info.width with
      | some w => if w ≠ 0 then some (pyIntOfRat (w * 96)) else none
      | none => none
    height :=
      match info.height with
      | some h => if h ≠ 0 then some (pyIntOfRat (h * 96)) else none
      | none => none
    paragraph_index := info.paragraph_index
    is_inline := true
    description := info.filename
    alt_text := some ("Изображение " ++ info.filename.getD "None") }

/-- `ImageAdapter.convert_list_to_image_elements` (`image_adapter.py` lines
38-59): elementwise conversion (the printed statistics do not affect the
result). -/
def convert_list_to_image_elements (image_infos : List ImageInfo) : List ImageElement :=
  image_infos.map convert_to_image_element

/-- Python `s.split(sep)` on character lists, fuel-structured so that it
reduces in the kernel (the fuel is always at least the list length plus one,
so the fuel-exhausted branch is never taken).  Non-overlapping matches, no
collapsing of adjacent separators, and the empty string yields one empty
token, as in Python. -/
def pySplitAux (sep : List Char) : Nat → List Char → List Char → List (List Char)
  | _, [], acc => [acc.reverse]
  | 0, cs, acc => [acc.reverse ++ cs]
  | fuel + 1, c :: rest, acc =>
    if sep ≠ [] ∧ sep.isPrefixOf (c :: rest) then
      acc.reverse :: pySplitAux sep fuel ((c :: rest).drop sep.length) []
    else pySplitAux sep fuel rest (c :: acc)

/-- Python `s.split(sep)` for a non-empty separator. -/
def pySplit (s sep : String) : List String :=
  (pySplitAux sep.data (s.data.length + 1) s.data []).map String.mk

/-- `DocumentProcessor._add_translated_table` (`document_processor.py` lines
1221-1253), modelled as the cell grid it writes: split the translated block
into rows at line breaks and each row into cells at the delimiter, strip each
cell, and crop or pad every row to the first row's column count (the code
creates the table with the first row's column count and only fills cells with
`col_idx < cols_count`; unfilled cells stay empty).  The applied table style
does not affect the grid. -/
def add_translated_table (translated_content : String) : List (List String) :=
  let rows_content := pySplit translated_content "\n"
  let first_row := pySplit (rows_content.headD "") " | "
  let cols_count := first_row.length
  rows_content.map (fun r =>
    let cells := (pySplit r " | ").take cols_count
    cells.map pyStrip ++ List.replicate (cols_count - cells.length) "")

/-- `TranslationResult` dataclass of `translator.py` (lines 18-24). -/
structure TranslationResult where
  translated_text : String
  success : Bool
  error : Option String := none
  deriving Repr, DecidableEq, Inhabited

/-- `DocumentElement` dataclass of `document_processor.py` (lines 52-61).
The opaque `original_element` handle and the formatting dictionary are not
part of the reconstruction model (formatting only selects styles, which do
not affect which blocks are consumed or which texts are emitted). -/
structure DocumentElement where
  element_type : String
  content : String
  index : Nat := 0
  style : Option String := none
  image_element : Option ImageElement := none
  deriving Repr, DecidableEq, Inhabited

/-- The sentinel used by `create_translated_document`
(`document_processor.py` line 879). -/
def EMPTY_PARA_MARKER : String := "[[EMPTY_PARAGRAPH_MARKER]]"

/-- One emitted item of the reconstructed output document: a paragraph with
its text (empty string for a spacing paragraph), a rebuilt table grid, or an
inserted image. -/
inductive OutItem where
  | para (text : String)
  | table (grid : List (List String))
  | image (image_id : String)
  deriving Repr, DecidableEq

/-- State of the reconstruction loop of `create_translated_document`: the
output produced so far, the unconsumed translated blocks (the iterator), and
the number of shortfall warnings printed so far. -/
structure ReconState where
  out : List OutItem := []
  remaining : List String
  warnings : Nat := 0
  deriving Repr, DecidableEq

/-- One iteration of the element loop of
`DocumentProcessor.create_translated_document` (`document_processor.py` lines
891-917).  An exhausted iterator (`StopIteration`) is caught inside the loop:
the element emits nothing, nothing is consumed, and a shortfall warning is
printed.  The model is a total function, matching the source's property that
no exception escapes the loop body. -/
def processElement (st : ReconState) (el : DocumentElement) : ReconState :=
  if el.element_type = "image" then
    match el.image_element with
    | some img => { st with out := st.out ++ [OutItem.image img.image_id] }
    | none => st
  else if el.element_type = "paragraph" then
    if pyStrip el.content = "" then
      { st with out := st.out ++ [OutItem.para ""] }
    else
      match st.remaining with
      | [] => { st with warnings := st.warnings + 1 }
      | b :: rest =>
        if pyStrip b ≠ "" ∧ b ≠ EMPTY_PARA_MARKER then
          { st with out := st.out ++ [OutItem.para b], remaining := rest }
        else
          { st with out := st.out ++ [OutItem.para ""], remaining := rest }
  else if el.element_type = "table" then
    match st.remaining with
    | [] => { st with warnings := st.warnings + 1 }
    | b :: rest =>
      { st with out := st.out ++ [OutItem.table (add_translated_table b)], remaining := rest }
  else st

/-- The element loop of `create_translated_document` plus its epilogue
(`document_processor.py` lines 891-923): after the loop, any unconsumed
translated blocks are appended as trailing paragraphs with a warning. -/
def reconstructFromBlocks (elements : List DocumentElement) (blocks : List String) : ReconState :=
  let final := elements.foldl processElement { remaining := blocks }
  if final.remaining ≠ [] then
    { final with out := final.out ++ final.remaining.map OutItem.para,
                 remaining := [], warnings := final.warnings + 1 }
  else final

/-- Index (from the END of the whitespace run) bookkeeping for the regex
separator of `re.split(r'\n\s*\n', ...)`: position just past the last newline
inside the whitespace run `w`. -/
def afterLastNewline (w : List Char) : Nat :=
  w.length - (w.reverse.takeWhile (fun c => c ≠ '\n')).length

/-- `re.split(r'\n\s*\n', s)` on character lists, fuel-structured.  A match
starts at a newline whose following maximal whitespace run contains another
newline; the greedy `\s*` with the final mandatory `\n` makes the separator
consume through the LAST newline of that run, leaving any trailing non-newline
whitespace to the next token. -/
def reSplitBlankAux : Nat → List Char → List Char → List (List Char)
  | _, [], acc => [acc.reverse]
  | 0, cs, acc => [acc.reverse ++ cs]
  | fuel + 1, c :: rest, acc =>
    if c = '\n' ∧ (rest.takeWhile isPySpace).any (fun x => x = '\n') then
      acc.reverse ::
        reSplitBlankAux fuel (rest.drop (afterLastNewline (rest.takeWhile isPySpace))) []
    else reSplitBlankAux fuel rest (c :: acc)

/-- `re.split(r'\n\s*\n', s)` for strings. -/
def reSplitBlank (s : String) : List String :=
  (reSplitBlankAux (s.data.length + 1) s.data []).map String.mk

/-- The translated-block stream construction of `create_translated_document`
(`document_processor.py` lines 881-886): join successful translations with
blank lines, split at blank-line separators, and drop empty tokens
(`filter(None, ...)`). -/
def splitTranslatedBlocks (translation_results : List TranslationResult) : List String :=
  let full := String.intercalate "\n\n"
    ((translation_results.filter (fun r => r.success)).map (fun r => r.translated_text))
  (reSplitBlank full).filter (fun s => s ≠ "")

/-- `DocumentProcessor.create_translated_document` (`document_processor.py`
lines 873-931), from the translation results to the emitted output items. -/
def create_translated_document (elements : List DocumentElement)
    (translation_results : List TranslationResult) : ReconState :=
  reconstructFromBlocks elements (splitTranslatedBlocks translation_results)

/-- Concrete input for claim C10: an `ImageInfo` whose width and height are
the float `0.0` (not `None`). -/
def cexC10info : ImageInfo :=
  { image_id := "extracted_1", image_data := [137, 80, 78, 71],
    image_format := "png", width := some 0, height := some 0,
    paragraph_index := some 3, rel_id := some "rId1",
    filename := some "image1.png" }

/-- Concrete input for the C10 witness: an `ImageInfo` with nonzero
dimensions. -/
def wC10info : ImageInfo :=
  { image_id := "extracted_2", image_data := [255, 216, 255],
    image_format := "jpeg", width := some 2, height := some 3,
    paragraph_index := some 5, rel_id := some "rId2",
    filename := some "image2.jpeg" }

/-- Concrete input for claim C7: a single table element, to be processed
against an exhausted translated-block stream. -/
def cexC7elements : List DocumentElement :=
  [{ element_type := "table", content := "A | B\nC | D" }]

/-- Concrete table element for the C7 witness. -/
def wC7el : DocumentElement :=
  { element_type := "table", content := "A | B\nC | D" }

/-- Concrete reconstruction state for the C7 witness: the translated block of
Scenario D is next in the stream. -/
def wC7st : ReconState :=
  { out := [], remaining := ["Ы | Б\nВ | Г"], warnings := 0 }

/-- One body paragraph as seen by the position validator of
`document_processor.py`: its plain text and whether any of its runs carries a
`w:drawing` node (the XML query at lines 186 and 228 is abstracted to this
flag). -/
structure Para where
  text : String
  hasDrawing : Bool
  deriving Repr, DecidableEq, Inhabited

/-- Significance test of `_validate_and_correct_image_positions`
(`document_processor.py` lines 185-188, 227-228): non-empty stripped text or
at least one drawing. -/
def paraSignificant (p : Para) : Bool :=
  pyStrip p.text ≠ "" ∨ p.hasDrawing

/-- The `significant_paragraphs` index list of
`_validate_and_correct_image_positions` (`document_processor.py` lines
183-194): the document-order indices of the significant paragraphs (only the
`index` entry of the Python dicts matters downstream). -/
def significantIndices (paras : List Para) : List Nat :=
  (List.range paras.length).filter
    (fun i => paraSignificant (paras.getD i { text := "", hasDrawing := false }))

/-- One comparison of `_find_nearest_significant_paragraph`: keep the
candidate with strictly smaller absolute distance to the target (so ties keep
the earlier, lower index).  The carried pair is (best distance, best index);
`none` plays the role of the initial infinite distance. -/
def nearerCandidate (target : Int) (best : Option (Int × Nat)) (i : Nat) : Option (Int × Nat) :=
  let d := |(i : Int) - target|
  match best with
  | none => some (d, i)
  | some (bd, bi) => if d < bd then some (d, i) else some (bd, bi)

/-- `DocumentProcessor._find_nearest_significant_paragraph`
(`document_processor.py` lines 388-403). -/
def find_nearest_significant_paragraph (target : Int) (sigs : List Nat) : Option Nat :=
  (sigs.foldl (nearerCandidate target) none).map (fun e => e.2)

/-- Python `significant_paragraphs[-len(significant_paragraphs)//3:]`
(`document_processor.py` line 421): the last ceil(n/3) entries when n > 3,
else the whole list. -/
def lastThirdSlice (sigs : List Nat) : List Nat :=
  if sigs.length > 3 then sigs.drop (sigs.length - (sigs.length + 2) / 3) else sigs

/-- Python `significant_paragraphs[:len(significant_paragraphs)//3]`
(`document_processor.py` line 427): the first floor(n/3) entries when n > 3,
else the whole list. -/
def firstThirdSlice (sigs : List Nat) : List Nat :=
  if sigs.length > 3 then sigs.take (sigs.length / 3) else sigs

/-- `DocumentProcessor._intelligent_position_correction`
(`document_processor.py` lines 405-431).  Python float arithmetic
(`original_position / total_paragraphs <= 2.0`,
`>= total_paragraphs * 0.8`, `<= total_paragraphs * 0.2`,
`int(original_position / total_paragraphs * len(sigs))`) is modelled by the
exact integer comparisons `op <= 2*tp`, `5*op >= 4*tp`, `5*op <= tp` and the
floor of the exact quotient. -/
def intelligent_position_correction (original_position : Int) (total_paragraphs : Nat)
    (sigs : List Nat) : Option Nat :=
  if sigs.isEmpty then none
  else if original_position ≥ (total_paragraphs : Int) ∧
      original_position ≤ 2 * (total_paragraphs : Int) ∧
      (Int.toNat (Int.tdiv (original_position * sigs.length) total_paragraphs)) < sigs.length then
    some (sigs.getD (Int.toNat (Int.tdiv (original_position * sigs.length) total_paragraphs)) 0)
  else if 5 * original_position ≥ 4 * (total_paragraphs : Int) then
    some ((lastThirdSlice sigs).headD 0)
  else if 5 * original_position ≤ (total_paragraphs : Int) then
    some ((firstThirdSlice sigs).getLastD 0)
  else none

/-- Stage 1 of the per-image loop of
`_validate_and_correct_image_positions` (`document_processor.py` lines
212-244): basic range validation against the TOTAL paragraph count, with
nearest-neighbour repositioning when the in-range target paragraph is
insignificant. -/
def validateStage1 (paras : List Para) (sigs : List Nat) (pi0 : Option Int) : Option Int :=
  match pi0 with
  | none => none
  | some pi =>
    if pi < 0 then none
    else if pi ≥ (paras.length : Int) then none
    else if paraSignificant (paras.getD pi.toNat { text := "", hasDrawing := false }) then
      some pi
    else
      match find_nearest_significant_paragraph pi sigs with
      | some c => some (c : Int)
      | none => none

/-- Stage 2 of the per-image loop (`document_processor.py` lines 246-253):
intelligent correction, attempted only when stage 1 nulled an anchor that was
originally present. -/
def validateStage2 (total_paragraphs : Nat) (sigs : List Nat)
    (original stage1 : Option Int) : Option Int :=
  match stage1, original with
  | none, some op =>
    match intelligent_position_correction op total_paragraphs sigs with
    | some c => some (c : Int)
    | none => none
  | s, _ => s

/-- Stages 1 and 2 combined for one image. -/
def validateImageStage12 (paras : List Para) (sigs : List Nat) (img : ImageElement) :
    ImageElement :=
  { img with
      paragraph_index :=
        validateStage2 paras.length sigs img.paragraph_index
          (validateStage1 paras sigs img.paragraph_index) }

/-- `DocumentProcessor._determine_distribution_strategy`
(`document_processor.py` lines 433-442). -/
def determine_distribution_strategy (images_count paragraphs_count : Nat) : String :=
  if images_count ≤ 2 then "end"
  else if images_count ≤ paragraphs_count / 3 then "distribute"
  else if images_count ≤ paragraphs_count / 2 then "cluster"
  else "end"

/-- The position assigned to the k-th unplaced image by
`_distribute_images_intelligently` (`document_processor.py` lines 444-463). -/
def distributeAssign (unplaced_count : Nat) (sigs : List Nat) (k : Nat)
    (img : ImageElement) : ImageElement :=
  if sigs.isEmpty then img
  else
    let step := max (sigs.length / (unplaced_count + 1)) 1
    let target := min ((k + 1) * step) (sigs.length - 1)
    if target < sigs.length then
      { img with paragraph_index := some ((sigs.getD target 0 : Nat) : Int) }
    else img

/-- The cluster points of `_cluster_images_strategically`
(`document_processor.py` lines 472-484). -/
def clusterPoints (sigs : List Nat) : List Nat :=
  if sigs.length > 10 then
    [sigs.getD (sigs.length / 4) 0, sigs.getD (sigs.length / 2) 0,
     sigs.getD (3 * sigs.length / 4) 0]
  else
    [sigs.headD 0, sigs.getLastD 0]

/-- The position assigned to the k-th unplaced image by
`_cluster_images_strategically` (`document_processor.py` lines 486-491):
images beyond the cluster points stay unplaced. -/
def clusterAssign (sigs : List Nat) (k : Nat) (img : ImageElement) : ImageElement :=
  if sigs.isEmpty then img
  else if k < (clusterPoints sigs).length then
    { img with paragraph_index := some (((clusterPoints sigs).getD k 0 : Nat) : Int) }
  else img

/-- One step of threading an assignment function over the still-unplaced
images: the accumulator carries the rebuilt list and the count of unplaced
images seen so far. -/
def unplacedStep (f : Nat → ImageElement → ImageElement)
    (acc : List ImageElement × Nat) (img : ImageElement) : List ImageElement × Nat :=
  if img.paragraph_index.isNone then (acc.1 ++ [f acc.2 img], acc.2 + 1)
  else (acc.1 ++ [img], acc.2)

/-- Apply an assignment function to the still-unplaced images of a list, in
order, numbering them 0, 1, ...; placed images pass through unchanged.  This
models the in-place mutation of the `images_without_position` sublist of
`_validate_and_correct_image_positions` (line 258). -/
def applyToUnplaced (f : Nat → ImageElement → ImageElement) (imgs : List ImageElement) :
    List ImageElement :=
  (imgs.foldl (unplacedStep f) ([], 0)).1

/-- `DocumentProcessor._validate_and_correct_image_positions`
(`document_processor.py` lines 166-289): per-image validation and correction
followed by the distribution pass over the images still unplaced.  The
statistics dictionary and printing do not affect the returned list. -/
def validate_and_correct_image_positions (paras : List Para) (images : List ImageElement) :
    List ImageElement :=
  if images.isEmpty then images
  else
    let sigs := significantIndices paras
    let corrected := images.map (validateImageStage12 paras sigs)
    let unplaced := (corrected.filter (fun i => i.paragraph_index.isNone)).length
    if unplaced = 0 then corrected
    else
      let strategy := determine_distribution_strategy unplaced sigs.length
      if strategy = "distribute" then applyToUnplaced (distributeAssign unplaced sigs) corrected
      else if strategy = "cluster" then applyToUnplaced (clusterAssign sigs) corrected
      else corrected

/-- The range invariant the validator actually guarantees for one image:
its anchor is null or a valid document paragraph index, i.e. strictly below
the TOTAL paragraph count. -/
def anchorInRange (total_paragraphs : Nat) (img : ImageElement) : Prop :=
  img.paragraph_index = none ∨
    ∃ n : Int, img.paragraph_index = some n ∧ 0 ≤ n ∧ n < (total_paragraphs : Int)

/-- Concrete input for claim C1: paragraph 0 is empty, paragraph 1 has text,
so there is exactly one significant paragraph but its document index is 1. -/
def cexC1paras : List Para :=
  [{ text := "", hasDrawing := false }, { text := "x", hasDrawing := false }]

/-- Concrete image for claim C1, anchored at document index 1. -/
def cexC1img : ImageElement :=
  { image_id := "extracted_1", image_data := [137, 80, 78, 71],
    image_format := "png", paragraph_index := some 1 }

/-- Concrete document for claim C4: ten paragraphs, all significant. -/
def c4paras : List Para :=
  List.replicate 10 { text := "p", hasDrawing := false }

/-- Concrete image for claim C4: claimed anchor 999 against 10 paragraphs. -/
def cexC4img : ImageElement :=
  { image_id := "extracted_1", image_data := [137, 80, 78, 71],
    image_format := "png", paragraph_index := some 999 }

/-- Python `str.lower()` (character-wise). -/
def pyLower (s : String) : String :=
  String.mk (s.data.map Char.toLower)

/-- Python `pat in s` substring membership for strings. -/
def strContainsSub (pat s : String) : Bool :=
  (List.range (s.data.length + 1)).any (fun i => pat.data.isPrefixOf (s.data.drop i))

/-- Occurrence of a byte pattern anywhere in a byte list. -/
def listContainsSeq (pat l : List Nat) : Bool :=
  (List.range (l.length + 1)).any (fun i => pat.isPrefixOf (l.drop i))

/-- Python `str.endswith`. -/
def pyEndsWith (s ending : String) : Bool :=
  ending.data.isSuffixOf s.data

/-- Python `os.path.basename`: the part after the last slash. -/
def pyBasename (p : String) : String :=
  String.mk ((p.data.reverse.takeWhile (fun c => c ≠ '/')).reverse)

/-- Root of `os.path.splitext`: the name up to the last dot, or the whole
name when it has no dot (the leading-dot corner of `splitext` is not needed
for package part names and is not modelled). -/
def pySplitExtRoot (name : String) : String :=
  let rev := name.data.reverse
  let afterDot := rev.takeWhile (fun c => c ≠ '.')
  if afterDot.length = rev.length then name
  else String.mk ((rev.drop (afterDot.length + 1)).reverse)

/-- One `Relationship` node of `word/_rels/document.xml.rels` as read by
`_parse_relationships`: its `Id`, `Target` and optional `Type` attributes
(`Id`/`Target` are present in well-formed relationship tables). -/
structure RelEntry where
  rel_id : String
  target : String
  rel_type : Option String := none
  deriving Repr, DecidableEq, Inhabited

/-- `ImprovedImageProcessor._parse_relationships`
(`improved_image_processor.py` lines 164-186).  `none` input models the
absent or unparseable relationship part: the exception is caught, a warning
logged, and the empty mapping returned.  Only relationships whose type
mentions "image" (case-insensitively) are kept, in document order. -/
def parse_relationships (rels_xml : Option (List RelEntry)) : List (String × String) :=
  match rels_xml with
  | none => []
  | some rels =>
    rels.foldl
      (fun acc r =>
        match r.rel_type with
        | some t =>
          if strContainsSub "image" (pyLower t) then acc ++ [(r.rel_id, r.target)] else acc
        | none => acc)
      []

/-- One `w:p` paragraph node of the body markup as seen by
`_parse_document_for_images`, abstracted to what each scan rule finds in it:
the `w:t` text nodes, the per-`w:drawing` lists of `a:blip` embed ids
(rule 1), the `a:blip` embed ids under `w:object` nodes (rule 2), the `r:id`
attributes under `w:pict` nodes (rule 3), the `r:embed` attributes under
`w:r` runs (rule 4), and the `r:id` attributes anywhere in the paragraph
(rule 5), each in document order. -/
structure XmlPara where
  textNodes : List String := []
  drawings : List (List String) := []
  objectBlips : List String := []
  pictIds : List String := []
  runEmbeds : List String := []
  altIds : List String := []
  deriving Repr, DecidableEq, Inhabited

/-- Significance of a body paragraph in `_parse_document_for_images`
(`improved_image_processor.py` lines 217-228): non-empty joined stripped text
or at least one `w:drawing` node. -/
def xmlParaSignificant (p : XmlPara) : Bool :=
  pyStrip (String.join p.textNodes) ≠ "" ∨ p.drawings ≠ []

/-- `ImprovedImageProcessor._is_image_relationship`
(`improved_image_processor.py` lines 530-543): returns True for every id. -/
def is_image_relationship (rel_id : String) : Bool :=
  true

/-- Membership of a key in the Python dict `image_positions`, modelled as an
insertion-ordered association list. -/
def dictMem (d : List (String × Nat)) (k : String) : Bool :=
  d.any (fun e => e.1 == k)

/-- Python dict assignment `d[k] = v`: overwrite in place, or append a fresh
entry. -/
def dictSet (d : List (String × Nat)) (k : String) (v : Nat) : List (String × Nat) :=
  if dictMem d k then d.map (fun e => if e.1 == k then (k, v) else e)
  else d ++ [(k, v)]

/-- Python dict lookup `d.get(k)`. -/
def dictGet (d : List (String × Nat)) (k : String) : Option Nat :=
  (d.find? (fun e => e.1 == k)).map (fun e => e.2)

/-- The unconditional assignment used by scan rules 1-3 of
`_parse_document_for_images` (drawing, inline object, legacy picture): every
non-empty id found is assigned the paragraph position, OVERWRITING any
earlier assignment (`image_positions[embed_id] = docx_idx` with no membership
check; lines 270-297). -/
def assignAll (ids : List String) (idx : Nat) (d : List (String × Nat)) :
    List (String × Nat) :=
  ids.foldl (fun d i => if i ≠ "" then dictSet d i idx else d) d

/-- The guarded assignment of scan rule 4 (`w:r` run embeds, lines 299-309):
assign only ids not already claimed. -/
def assignNew (ids : List String) (idx : Nat) (d : List (String × Nat)) :
    List (String × Nat) :=
  ids.foldl (fun d i => if i ≠ "" ∧ ¬ dictMem d i then dictSet d i idx else d) d

/-- The guarded assignment of scan rule 5 (generic `r:id` fallback, lines
311-321): assign only unclaimed ids that pass `_is_image_relationship`. -/
def assignNewIfImage (ids : List String) (idx : Nat) (d : List (String × Nat)) :
    List (String × Nat) :=
  ids.foldl
    (fun d i =>
      if i ≠ "" ∧ ¬ dictMem d i ∧ is_image_relationship i then dictSet d i idx else d)
    d

/-- The five scan rules applied to one significant paragraph, in source
order (`improved_image_processor.py` lines 262-321). -/
def scanParaIds (d : List (String × Nat)) (p : XmlPara) (docx_idx : Nat) :
    List (String × Nat) :=
  let d1 := assignAll p.drawings.join docx_idx d
  let d2 := assignAll p.objectBlips docx_idx d1
  let d3 := assignAll p.pictIds docx_idx d2
  let d4 := assignNew p.runEmbeds docx_idx d3
  assignNewIfImage p.altIds docx_idx d4

/-- `ImprovedImageProcessor._parse_document_for_images`
(`improved_image_processor.py` lines 188-341): walk the body paragraphs,
numbering the significant ones 0, 1, ... (the `docx_index` mapping of lines
213-245), and scan each significant paragraph with the five rules;
insignificant paragraphs are skipped entirely (line 259). -/
def parse_document_for_images (paras : List XmlPara) : List (String × Nat) :=
  (paras.foldl
    (fun (st : List (String × Nat) × Nat) p =>
      if xmlParaSignificant p then (scanParaIds st.1 p st.2, st.2 + 1) else st)
    ([], 0)).1

/-- The body-markup scan including its exception handler: `none` models an
unparseable `word/document.xml` (the error is caught and the mapping
collected so far - empty in the model - is returned). -/
def parse_document_for_images_opt (document_xml : Option (List XmlPara)) :
    List (String × Nat) :=
  match document_xml with
  | none => []
  | some paras => parse_document_for_images paras

/-- The parts of a `.docx` package consumed by `extract_images_from_docx`:
the media part names with their bytes, and the two XML parts, each `none`
when absent or unparseable. -/
structure Package where
  media_files : List (String × List Nat)
  rels_xml : Option (List RelEntry) := none
  document_xml : Option (List XmlPara) := none

/-- `ImprovedImageProcessor._detect_image_format`
(`improved_image_processor.py` lines 391-412): magic-number checks in
priority order, then the PIL fallback (an oracle here: `none` models a PIL
failure, caught and turned into "unknown"). -/
def detect_image_format (pil_format : List Nat → Option String)
    (image_data : List Nat) : String :=
  if [137, 80, 78, 71].isPrefixOf image_data then "png"
  else if [255, 216, 255].isPrefixOf image_data then "jpeg"
  else if [71, 73, 70, 56, 55, 97].isPrefixOf image_data ∨
      [71, 73, 70, 56, 57, 97].isPrefixOf image_data then "gif"
  else if [66, 77].isPrefixOf image_data then "bmp"
  else if [82, 73, 70, 70].isPrefixOf image_data ∧
      listContainsSeq [87, 69, 66, 80] (image_data.take 12) then "webp"
  else
    match pil_format image_data with
    | some f => pyLower f
    | none => "unknown"

/-- `ImprovedImageProcessor._find_rel_id_for_media`
(`improved_image_processor.py` lines 343-365): three passes over the
relationship mapping in insertion order. -/
def find_rel_id_for_media (media_file : String)
    (relationships : List (String × String)) : Option String :=
  let media_filename := pyBasename media_file
  match relationships.find? (fun e => pyEndsWith e.2 media_filename) with
  | some e => some e.1
  | none =>
    match relationships.find?
        (fun e => pyEndsWith e.2 media_filename || pyEndsWith e.2 media_file) with
    | some e => some e.1
    | none =>
      match relationships.find?
          (fun e => pySplitExtRoot (pyBasename e.2) == pySplitExtRoot media_filename) with
      | some e => some e.1
      | none => none

/-- `image_positions.get(rel_id)` at `improved_image_processor.py` line 117:
a missing relationship id (Python `None`) looks up nothing. -/
def lookupPosition (image_positions : List (String × Nat)) (rel_id : Option String) :
    Option Int :=
  match rel_id with
  | none => none
  | some r => (dictGet image_positions r).map (fun n => (n : Int))

/-- The per-media-file body of the extraction loop
(`improved_image_processor.py` lines 99-152): detect the format (skipping
the file when unknown), derive the id from the count so far, resolve the
relationship id and anchor position, and query PIL for dimensions (`none`
models a decode failure, caught and recorded as null dimensions).  Failures
are all local: the surrounding `except ... continue` never aborts the
batch. -/
def extractMediaStep (pil_format : List Nat → Option String)
    (pil_dims : List Nat → Option (ℚ × ℚ))
    (relationships : List (String × String)) (image_positions : List (String × Nat))
    (acc : List ImageInfo) (mf : String × List Nat) : List ImageInfo :=
  let image_data := mf.2
  let fmt := detect_image_format pil_format image_data
  if fmt = "unknown" then acc
  else
    let rel_id := find_rel_id_for_media mf.1 relationships
    let dims := pil_dims image_data
    acc ++ [{ image_id := "extracted_" ++ toString (acc.length + 1),
              image_data := image_data,
              image_format := fmt,
              width := dims.map (fun e => e.1),
              height := dims.map (fun e => e.2),
              paragraph_index := lookupPosition image_positions rel_id,
              rel_id := rel_id,
              filename := some (pyBasename mf.1) }]

/-- `ImprovedImageProcessor.extract_images_from_docx`
(`improved_image_processor.py` lines 57-162).  `none` for the package models
a file that cannot be opened as a ZIP archive: the outer handler logs the
error and the empty list collected so far is returned.  The temporary-file
writes do not affect the returned list. -/
def extract_images_from_docx (pil_format : List Nat → Option String)
    (pil_dims : List Nat → Option (ℚ × ℚ)) (pkg : Option Package) : List ImageInfo :=
  match pkg with
  | none => []
  | some pkg =>
    let relationships := parse_relationships pkg.rels_xml
    let image_positions := parse_document_for_images_opt pkg.document_xml
    pkg.media_files.foldl (extractMediaStep pil_format pil_dims relationships image_positions) []

/-- Concrete input for claim C5: paragraph 0 (significant through its
drawing) references rId1 via the drawing rule; paragraph 1 (significant
through text) references the same rId1 via the legacy-picture rule. -/
def cexC5paras : List XmlPara :=
  [{ drawings := [["rId1"]] },
   { textNodes := ["x"], pictIds := ["rId1"] }]

/-- Concrete input for claim C9: a package with one PNG media file whose
relationship table is unparseable. -/
def cexC9pkg : Package :=
  { media_files := [("word/media/image1.png", [137, 80, 78, 71, 13])],
    rels_xml := none,
    document_xml := none }

/-- Concrete non-empty paragraph element for the C6 witness (the third
expected paragraph of Scenario E). -/
def wC6el : DocumentElement :=
  { element_type := "paragraph", content := "Third paragraph" }

/-- Concrete reconstruction state for the C6 witness: two translated blocks
already consumed and none left. -/
def wC6st : ReconState :=
  { out := [OutItem.para "t1", OutItem.para "t2"], remaining := [], warnings := 0 }

end Translator

namespace Translator

/-- helper: the empty string is a left identity for string append. -/
theorem empty_string_append (s : String) : "" ++ s = s := by
  cases s with
  | mk data => rfl

/-- helper: joining a one-element list of strings gives back the string. -/
theorem string_join_singleton (s : String) : String.join [s] = s := by
  show String.join [s] = s
  unfold String.join
  simp [empty_string_append]

/-- C2: the translation-mapping step used by reconstruction returns segment
lists whose concatenated texts are exactly the translated text: every branch
of `map_conservative_formatting_to_translation` returns a single segment whose
`text` is the whole translated string, so no character is dropped or
duplicated. -/
theorem C2_segment_coverage (original_segments : List FormattingSegment)
    (original_text translated_text : String) :
    concatSegmentTexts
      (map_conservative_formatting_to_translation original_segments original_text translated_text)
      = translated_text := by
  unfold map_conservative_formatting_to_translation concatSegmentTexts
  split
  · simp [string_join_singleton]
  · split
    · simp [string_join_singleton]
    · simp [string_join_singleton]

end Translator

namespace Translator

theorem mem_uniqueStep (acc : List String) (k x : String) :
    x ∈ uniqueStep acc k ↔ x ∈ acc ∨ x = k := by
  unfold uniqueStep
  by_cases h : k ∈ acc
  · rw [if_pos h]
    constructor
    · exact Or.inl
    · rintro (hx | hx)
      · exact hx
      · exact hx ▸ h
  · rw [if_neg h]
    simp

theorem mem_foldl_uniqueStep (l acc : List String) (x : String) :
    x ∈ l.foldl uniqueStep acc ↔ x ∈ acc ∨ x ∈ l := by
  induction l generalizing acc with
  | nil => simp
  | cons k rest ih =>
    rw [List.foldl_cons, ih, mem_uniqueStep]
    simp only [List.mem_cons]
    tauto

theorem mem_uniqueInOrder (l : List String) (x : String) :
    x ∈ uniqueInOrder l ↔ x ∈ l := by
  unfold uniqueInOrder
  rw [mem_foldl_uniqueStep]
  simp

theorem uniqueInOrder_snoc (l : List String) (k : String) :
    uniqueInOrder (l ++ [k]) = uniqueStep (uniqueInOrder l) k := by
  unfold uniqueInOrder
  rw [List.foldl_append, List.foldl_cons, List.foldl_nil]

theorem countKey_snoc (l : List String) (a x : String) :
    countKey (l ++ [a]) x = countKey l x + (if a = x then 1 else 0) := by
  by_cases h : a = x <;> simp [countKey, List.filter_append, h]

theorem countKey_eq_zero_of_not_mem (l : List String) (x : String) (h : x ∉ l) :
    countKey l x = 0 := by
  unfold countKey
  rw [List.length_eq_zero, List.filter_eq_nil_iff]
  intro a ha
  simp only [decide_eq_true_eq]
  intro hax
  exact h (hax ▸ ha)

theorem find?_isSome_of_mem_keys (segments : List FormattingSegment) (k : String)
    (hk : k ∈ segments.map styleKey) :
    ∃ s0, segments.find? (fun s => styleKey s = k) = some s0 := by
  rcases List.mem_map.mp hk with ⟨s, hs, rfl⟩
  have hsome : (segments.find? (fun s2 => styleKey s2 = styleKey s)).isSome := by
    rw [List.find?_isSome]
    exact ⟨s, hs, by simp⟩
  exact Option.isSome_iff_exists.mp hsome

theorem firstAttrs_append_of_mem (pre : List FormattingSegment) (s : FormattingSegment)
    (k : String) (hk : k ∈ pre.map styleKey) :
    firstAttrsWithKey (pre ++ [s]) k = firstAttrsWithKey pre k := by
  unfold firstAttrsWithKey
  rw [List.find?_append]
  obtain ⟨s0, hs0⟩ := find?_isSome_of_mem_keys pre k hk
  rw [hs0]
  rfl

theorem find?_eq_none_of_not_mem_keys (pre : List FormattingSegment) (k : String)
    (hk : k ∉ pre.map styleKey) :
    pre.find? (fun s => styleKey s = k) = none := by
  rw [List.find?_eq_none]
  intro s hs hps
  simp only [decide_eq_true_eq] at hps
  exact hk (List.mem_map.mpr ⟨s, hs, hps⟩)

theorem firstAttrs_append_self (pre : List FormattingSegment) (s : FormattingSegment)
    (hk : styleKey s ∉ pre.map styleKey) :
    firstAttrsWithKey (pre ++ [s]) (styleKey s) = styleAttrs s := by
  unfold firstAttrsWithKey
  rw [List.find?_append, find?_eq_none_of_not_mem_keys pre _ hk]
  rw [show List.find? (fun s2 => styleKey s2 = styleKey s) [s] = some s by
    simp [List.find?_cons]]
  rfl

theorem countStep_dictOf (pre : List FormattingSegment) (s : FormattingSegment) :
    countStep (dictOfSegments pre) s = dictOfSegments (pre ++ [s]) := by
  unfold countStep dictOfSegments
  have hmapappend : (pre ++ [s]).map styleKey = pre.map styleKey ++ [styleKey s] := by
    simp
  have hany : ((uniqueInOrder (pre.map styleKey)).map
      (fun k => (k, countKey (pre.map styleKey) k, firstAttrsWithKey pre k))).any
      (fun e => e.1 = styleKey s) = true ↔ styleKey s ∈ pre.map styleKey := by
    rw [List.any_eq_true]
    constructor
    · rintro ⟨e, he, hpe⟩
      rcases List.mem_map.mp he with ⟨k, hk, rfl⟩
      simp only [decide_eq_true_eq] at hpe
      exact hpe ▸ ((mem_uniqueInOrder _ k).mp hk)
    · intro hs
      exact ⟨(styleKey s, countKey (pre.map styleKey) (styleKey s),
          firstAttrsWithKey pre (styleKey s)),
        List.mem_map.mpr ⟨styleKey s, (mem_uniqueInOrder _ _).mpr hs, rfl⟩, by simp⟩
  rw [hmapappend, uniqueInOrder_snoc]
  unfold uniqueStep
  by_cases hmem : styleKey s ∈ pre.map styleKey
  · rw [if_pos (hany.mpr hmem), if_pos ((mem_uniqueInOrder _ _).mpr hmem), List.map_map]
    apply List.map_congr_left
    intro k hk
    have hkpre : k ∈ pre.map styleKey := (mem_uniqueInOrder _ k).mp hk
    have hattrs : firstAttrsWithKey (pre ++ [s]) k = firstAttrsWithKey pre k :=
      firstAttrs_append_of_mem pre s k hkpre
    by_cases hks : k = styleKey s
    · subst hks
      simp [countKey_snoc, hattrs]
    · have hsk : ¬ (styleKey s = k) := fun hc => hks hc.symm
      simp [hks, countKey_snoc, hsk, hattrs]
  · rw [if_neg (fun hc => hmem (hany.mp hc)),
        if_neg (fun hc => hmem ((mem_uniqueInOrder _ _).mp hc)), List.map_append]
    congr 1
    · apply List.map_congr_left
      intro k hk
      have hkpre : k ∈ pre.map styleKey := (mem_uniqueInOrder _ k).mp hk
      have hsk : ¬ (styleKey s = k) := fun hc => hmem (hc ▸ hkpre)
      have hattrs : firstAttrsWithKey (pre ++ [s]) k = firstAttrsWithKey pre k :=
        firstAttrs_append_of_mem pre s k hkpre
      simp [countKey_snoc, hsk, hattrs]
    · have h0 : countKey (pre.map styleKey) (styleKey s) = 0 :=
        countKey_eq_zero_of_not_mem _ _ hmem
      have hattrs : firstAttrsWithKey (pre ++ [s]) (styleKey s) = styleAttrs s :=
        firstAttrs_append_self pre s hmem
      simp [countKey_snoc, h0, hattrs]

theorem buildCounts_go (rest : List FormattingSegment) : ∀ pre : List FormattingSegment,
    List.foldl countStep (dictOfSegments pre) rest = dictOfSegments (pre ++ rest) := by
  induction rest with
  | nil =>
    intro pre
    simp
  | cons s rest ih =>
    intro pre
    rw [List.foldl_cons, countStep_dictOf, ih (pre ++ [s])]
    simp [List.append_assoc]

theorem buildStyleCounts_eq (segments : List FormattingSegment) :
    buildStyleCounts segments = dictOfSegments segments := by
  unfold buildStyleCounts
  have h := buildCounts_go segments []
  rw [show dictOfSegments [] = [] from rfl] at h
  rw [show ([] : List FormattingSegment) ++ segments = segments from rfl] at h
  exact h

theorem pyMax_map (keys : List String) (a : String → StyleAttrs) (u : List String)
    (b : Option String) :
    List.foldl pyMaxStep (b.map (fun k => (k, countKey keys k, a k)))
        (u.map (fun k => (k, countKey keys k, a k)))
      = (List.foldl (specMaxStep keys) b u).map (fun k => (k, countKey keys k, a k)) := by
  induction u generalizing b with
  | nil => simp
  | cons k rest ih =>
    rw [List.map_cons, List.foldl_cons, List.foldl_cons, ← ih]
    congr 1
    cases b with
    | none => rfl
    | some b0 =>
      by_cases h : countKey keys k > countKey keys b0 <;>
        simp [pyMaxStep, specMaxStep, h]

theorem foldl_specMaxStep_isSome (keys : List String) (u : List String) (b : String) :
    (List.foldl (specMaxStep keys) (some b) u).isSome := by
  induction u generalizing b with
  | nil => rfl
  | cons k rest ih =>
    rw [List.foldl_cons]
    by_cases h : countKey keys k > countKey keys b
    · rw [show specMaxStep keys (some b) k = some k by simp [specMaxStep, h]]
      exact ih k
    · rw [show specMaxStep keys (some b) k = some b by simp [specMaxStep, h]]
      exact ih b

theorem firstMostFrequent_isSome (keys : List String) (h : keys ≠ []) :
    (firstMostFrequent keys).isSome := by
  unfold firstMostFrequent
  obtain ⟨k, ks, rfl⟩ := List.exists_cons_of_ne_nil h
  have hmem : k ∈ uniqueInOrder (k :: ks) := (mem_uniqueInOrder _ k).mpr (List.mem_cons_self k ks)
  obtain ⟨u1, u2, hu⟩ := List.append_of_mem hmem
  rw [hu, List.foldl_append, List.foldl_cons]
  cases hres : List.foldl (specMaxStep (k :: ks)) none u1 with
  | none => exact foldl_specMaxStep_isSome _ _ _
  | some b =>
    by_cases hc : countKey (k :: ks) k > countKey (k :: ks) b
    · rw [show specMaxStep (k :: ks) (some b) k = some k by simp [specMaxStep, hc]]
      exact foldl_specMaxStep_isSome _ _ _
    · rw [show specMaxStep (k :: ks) (some b) k = some b by simp [specMaxStep, hc]]
      exact foldl_specMaxStep_isSome _ _ _

theorem foldl_specMaxStep_mem (keys S : List String) :
    ∀ (u : List String) (b : Option String), u ⊆ S →
      (∀ x, b = some x → x ∈ S) →
      ∀ k, List.foldl (specMaxStep keys) b u = some k → k ∈ S := by
  intro u
  induction u with
  | nil =>
    intro b _ hb k hk
    exact hb k hk
  | cons j rest ih =>
    intro b hsub hb k hk
    rw [List.foldl_cons] at hk
    refine ih _ (fun x hx => hsub (List.mem_cons_of_mem _ hx)) ?_ k hk
    intro x hx
    cases b with
    | none =>
      simp only [specMaxStep] at hx
      cases hx
      exact hsub (List.mem_cons_self j rest)
    | some b0 =>
      simp only [specMaxStep] at hx
      by_cases hcmp : countKey keys j > countKey keys b0
      · rw [if_pos hcmp] at hx
        cases hx
        exact hsub (List.mem_cons_self j rest)
      · rw [if_neg hcmp] at hx
        cases hx
        exact hb _ rfl

theorem firstMostFrequent_mem (keys : List String) (k : String)
    (h : firstMostFrequent keys = some k) : k ∈ keys := by
  unfold firstMostFrequent at h
  exact foldl_specMaxStep_mem keys keys (uniqueInOrder keys) none
    (fun x hx => (mem_uniqueInOrder keys x).mp hx) (fun x hx => by cases hx) k h

theorem get_most_common_style_eq (segments : List FormattingSegment) :
    get_most_common_style segments
      = ((firstMostFrequent (segments.map styleKey)).map
          (firstAttrsWithKey segments)).getD (none, none, none, none, none) := by
  unfold get_most_common_style pyMaxByCount firstMostFrequent
  rw [buildStyleCounts_eq]
  unfold dictOfSegments
  have h := pyMax_map (segments.map styleKey) (firstAttrsWithKey segments)
    (uniqueInOrder (segments.map styleKey)) none
  simp only [Option.map_none'] at h
  rw [h]
  cases List.foldl (specMaxStep (segments.map styleKey)) none
      (uniqueInOrder (segments.map styleKey)) with
  | none => rfl
  | some k => rfl

end Translator

namespace Translator

/-- C3 (counterexample): with two original segments of different styles
("ab" bold, "cd" not bold), original text "abcd" and translated text "wxyz",
proportional remapping would produce two segments ("wx" bold and "yz" not
bold, each a two-character share); the translation-mapping step instead
returns a single segment covering the whole translation with the first
segment's style, so the claimed proportional behaviour for 2-3 segments does
not hold. -/
theorem C3_counterexample :
    (map_conservative_formatting_to_translation cexC3segs "abcd" "wxyz").map
        (fun s => s.text) = ["wxyz"]
    ∧ (map_conservative_formatting_to_translation cexC3segs "abcd" "wxyz").length = 1
    ∧ (map_conservative_formatting_to_translation cexC3segs "abcd" "wxyz").map
        (fun s => s.bold) = [some true] := by
  refine ⟨?_, ?_, ?_⟩ <;> decide

/-- C3 (amended): for more than zero and at most three original formatting
segments and a translated text containing a non-whitespace character, the
translation-mapping step does not remap proportionally; it returns a single
segment spanning the whole translated text that carries the FIRST original
segment's bold/italic/underline/font-name/font-size, with font color dropped. -/
theorem C3_first_segment_style (original_segments : List FormattingSegment)
    (original_text translated_text : String)
    (h0 : original_segments ≠ [])
    (h1 : original_segments.length ≤ 3)
    (h2 : pyStrip translated_text ≠ "") :
    map_conservative_formatting_to_translation original_segments original_text translated_text
      = [{ text := translated_text,
           bold := (original_segments.headD default).bold,
           italic := (original_segments.headD default).italic,
           underline := (original_segments.headD default).underline,
           font_name := (original_segments.headD default).font_name,
           font_size := (original_segments.headD default).font_size,
           font_color := none,
           start_pos := 0, end_pos := translated_text.length }] := by
  unfold map_conservative_formatting_to_translation
  have hc1 : ¬ (original_segments.isEmpty = true ∨ pyStrip translated_text = "") := by
    rintro (h | h)
    · exact h0 (List.isEmpty_iff.mp h)
    · exact h2 h
  rw [if_neg hc1, if_neg (by omega : ¬ original_segments.length > 3)]

/-- C3 witness: the amended theorem applied to the concrete counterexample
input. -/
theorem C3_first_segment_style_witness :
    map_conservative_formatting_to_translation cexC3segs "abcd" "wxyz"
      = [{ text := "wxyz",
           bold := (cexC3segs.headD default).bold,
           italic := (cexC3segs.headD default).italic,
           underline := (cexC3segs.headD default).underline,
           font_name := (cexC3segs.headD default).font_name,
           font_size := (cexC3segs.headD default).font_size,
           font_color := none,
           start_pos := 0, end_pos := "wxyz".length }] :=
  C3_first_segment_style cexC3segs "abcd" "wxyz" (by decide) (by decide) (by decide)

/-- C8 (counterexample): four segments whose attribute combinations are
(no attributes) once, (font name "None") once and (bold) twice, with the
non-blank translated text "wxyz".  The unique most frequent attribute
combination is bold (2 of 4 segments), but the source's dictionary keys by
the rendered string, which merges the absent font name with the literal font
name "None" into one group of 2; the tie then keeps the first-inserted entry,
so the output carries NO attributes - not the most frequent combination.  A
second conjunct shows the independent blank-translation failure: with four
all-bold segments and an empty translated text, the early exit returns an
unstyled segment. -/
theorem C8_counterexample :
    (map_conservative_formatting_to_translation cexC8segs "abcd" "wxyz").map
        (fun s => (s.bold, s.font_name)) = [(none, none)]
    ∧ (cexC8segs.filter
        (fun s => styleAttrs s = (none, none, none, none, none))).length = 1
    ∧ (cexC8segs.filter
        (fun s => styleAttrs s = (some true, none, none, none, none))).length = 2
    ∧ (map_conservative_formatting_to_translation wC8segs "abcd" "").map
        (fun s => s.bold) = [none]
    ∧ wC8segs.map (fun s => s.bold) = [some true, some true, some true, some true] := by
  refine ⟨by decide, by decide, by decide, by decide, by decide⟩

/-- C8 (amended): for more than three original formatting segments and a
translated text containing a non-whitespace character, the translation-mapping
step returns a single segment spanning the whole translated text, with font
color never propagated; the carried bold/italic/underline/font-name/font-size
are those of the FIRST segment of the most frequently occurring RENDERED-KEY
group, where segments are grouped by the underscore-joined string rendering
of the five attributes (a rendering that can merge distinct combinations,
such as an absent font name and the literal font name "None"), ties broken in
favour of the first-encountered group (`firstMostFrequent` over the rendered
keys is the specification-side form of that selection, proved to agree with
the code's `get_most_common_style`).  For whitespace-only translated text the
early exit returns an unstyled whole-text segment instead. -/
theorem C8_most_common_style (original_segments : List FormattingSegment)
    (original_text translated_text : String)
    (h1 : 3 < original_segments.length)
    (h2 : pyStrip translated_text ≠ "") :
    ∃ (k : String) (s0 : FormattingSegment),
      firstMostFrequent (original_segments.map styleKey) = some k
      ∧ original_segments.find? (fun s => styleKey s = k) = some s0
      ∧ map_conservative_formatting_to_translation original_segments original_text
          translated_text
        = [{ text := translated_text, bold := s0.bold, italic := s0.italic,
             underline := s0.underline, font_name := s0.font_name,
             font_size := s0.font_size, font_color := none,
             start_pos := 0, end_pos := translated_text.length }] := by
  have hne : original_segments ≠ [] := by
    intro h
    rw [h] at h1
    simp at h1
  have hkeys : original_segments.map styleKey ≠ [] := by
    simpa using hne
  obtain ⟨k, hk⟩ := Option.isSome_iff_exists.mp (firstMostFrequent_isSome _ hkeys)
  have hkmem : k ∈ original_segments.map styleKey := firstMostFrequent_mem _ k hk
  obtain ⟨s0, hs0⟩ := find?_isSome_of_mem_keys original_segments k hkmem
  refine ⟨k, s0, hk, hs0, ?_⟩
  unfold map_conservative_formatting_to_translation
  have hc1 : ¬ (original_segments.isEmpty = true ∨ pyStrip translated_text = "") := by
    rintro (h | h)
    · exact hne (List.isEmpty_iff.mp h)
    · exact h2 h
  have hmcs : get_most_common_style original_segments = styleAttrs s0 := by
    rw [get_most_common_style_eq, hk]
    show firstAttrsWithKey original_segments k = styleAttrs s0
    unfold firstAttrsWithKey
    rw [hs0]
    rfl
  rw [if_neg hc1, if_pos h1, hmcs]
  rfl

/-- C8 witness: the amended theorem applied at four all-bold segments and the
translated text "wxyz". -/
theorem C8_most_common_style_witness :
    ∃ (k : String) (s0 : FormattingSegment),
      firstMostFrequent (wC8segs.map styleKey) = some k
      ∧ wC8segs.find? (fun s => styleKey s = k) = some s0
      ∧ map_conservative_formatting_to_translation wC8segs "abcd" "wxyz"
        = [{ text := "wxyz", bold := s0.bold, italic := s0.italic,
             underline := s0.underline, font_name := s0.font_name,
             font_size := s0.font_size, font_color := none,
             start_pos := 0, end_pos := "wxyz".length }] :=
  C8_most_common_style wC8segs "abcd" "wxyz" (by decide) (by decide)

end Translator

namespace Translator

/-- C10 (counterexample): an `ImageInfo` whose width is the float `0.0` is
not rescaled to `int(0.0 * 96) = 0`; the Python truthiness test
`if image_info.width` treats `0.0` like `None`, so the converted width is
null.  The claim's "only rescaled, null kept as null" reading fails at this
input. -/
theorem C10_counterexample :
    cexC10info.width = some 0 ∧ (convert_to_image_element cexC10info).width = none := by
  refine ⟨rfl, by decide⟩

/-- C10 (amended): the adapter conversion preserves `image_id`, `image_data`,
`image_format` and `paragraph_index` unchanged; `width` and `height` are
rescaled (inches times 96, truncated toward zero) when present and nonzero,
while `None` OR the float zero become null; the added presentation fields do
not affect the preserved fields. -/
theorem C10_field_preservation (info : ImageInfo) :
    (convert_to_image_element info).image_id = info.image_id
    ∧ (convert_to_image_element info).image_data = info.image_data
    ∧ (convert_to_image_element info).image_format = info.image_format
    ∧ (convert_to_image_element info).paragraph_index = info.paragraph_index
    ∧ (∀ w : ℚ, info.width = some w → w ≠ 0 →
        (convert_to_image_element info).width = some (pyIntOfRat (w * 96)))
    ∧ (info.width = none → (convert_to_image_element info).width = none)
    ∧ (info.width = some 0 → (convert_to_image_element info).width = none)
    ∧ (∀ h : ℚ, info.height = some h → h ≠ 0 →
        (convert_to_image_element info).height = some (pyIntOfRat (h * 96)))
    ∧ (info.height = none → (convert_to_image_element info).height = none)
    ∧ (info.height = some 0 → (convert_to_image_element info).height = none) := by
  refine ⟨rfl, rfl, rfl, rfl, ?_, ?_, ?_, ?_, ?_, ?_⟩
  · intro w hw hz
    simp [convert_to_image_element, hw, hz]
  · intro hw
    simp [convert_to_image_element, hw]
  · intro hw
    simp [convert_to_image_element, hw]
  · intro h hh hz
    simp [convert_to_image_element, hh, hz]
  · intro hh
    simp [convert_to_image_element, hh]
  · intro hh
    simp [convert_to_image_element, hh]

/-- C10 witness: the amended theorem applied to a concrete record with
width 2 inches, whose converted width is `int(2 * 96)`. -/
theorem C10_field_preservation_witness :
    (convert_to_image_element wC10info).width = some (pyIntOfRat (2 * 96)) :=
  (C10_field_preservation wC10info).2.2.2.2.1 2 rfl (by norm_num)

/-- C6: a paragraph element with non-empty content processed when the
translated-block stream is exhausted consumes exactly zero blocks, records
one shortfall warning, emits no text for the element, and the (total) step
function returns normally, so no exception propagates. -/
theorem C6_shortfall (st : ReconState) (el : DocumentElement)
    (htype : el.element_type = "paragraph")
    (hcontent : pyStrip el.content ≠ "")
    (hrem : st.remaining = []) :
    processElement st el = { st with warnings := st.warnings + 1 } := by
  unfold processElement
  have h1 : ¬ (el.element_type = "image") := by
    rw [htype]
    decide
  rw [if_neg h1, if_pos htype, if_neg hcontent, hrem]

/-- C6 witness: Scenario E's third non-empty paragraph against an exhausted
stream of two blocks. -/
theorem C6_shortfall_witness :
    processElement wC6st wC6el = { wC6st with warnings := wC6st.warnings + 1 } :=
  C6_shortfall wC6st wC6el rfl (by decide) rfl

/-- C7 (counterexample): a table element processed when the translated-block
stream is exhausted consumes ZERO blocks and emits no table (a warning is
recorded instead), so "for every table element, reconstruction consumes
exactly one translated block and rebuilds a grid" fails on an exhausted
stream. -/
theorem C7_counterexample :
    reconstructFromBlocks cexC7elements []
      = { out := [], remaining := [], warnings := 1 } := by
  decide

/-- C7 (amended): for every table element processed while the stream still
holds a block, reconstruction consumes exactly that one block and rebuilds a
grid by splitting it into rows at line breaks and into cells at the pipe
delimiter, cropping (or padding with empty cells) every row to the first
row's column count; and the Scenario D block "Ы | Б\nВ | Г" yields exactly
the 2-by-2 grid with cells Ы, Б, В, Г.  When the stream is exhausted the
element consumes nothing and records a warning instead
(`C7_counterexample`). -/
theorem C7_table_block (st : ReconState) (el : DocumentElement)
    (b : String) (rest : List String)
    (htype : el.element_type = "table")
    (hrem : st.remaining = b :: rest) :
    processElement st el
      = { st with out := st.out ++ [OutItem.table (add_translated_table b)],
                  remaining := rest }
    ∧ (∀ row ∈ add_translated_table b,
        row.length = (pySplit ((pySplit b "\n").headD "") " | ").length)
    ∧ add_translated_table "Ы | Б\nВ | Г" = [["Ы", "Б"], ["В", "Г"]] := by
  refine ⟨?_, ?_, by decide⟩
  · unfold processElement
    have h1 : ¬ (el.element_type = "image") := by
      rw [htype]
      decide
    have h2 : ¬ (el.element_type = "paragraph") := by
      rw [htype]
      decide
    rw [if_neg h1, if_neg h2, if_pos htype, hrem]
  · intro row hrow
    simp only [add_translated_table, List.mem_map] at hrow
    obtain ⟨r, hr, rfl⟩ := hrow
    simp only [List.length_append, List.length_map, List.length_take,
      List.length_replicate]
    omega

/-- C7 witness: the amended theorem applied to a concrete table element with
the Scenario D block next in the stream. -/
theorem C7_table_block_witness :
    processElement wC7st wC7el
      = { wC7st with
            out := wC7st.out ++ [OutItem.table (add_translated_table "Ы | Б\nВ | Г")],
            remaining := [] }
    ∧ (∀ row ∈ add_translated_table "Ы | Б\nВ | Г",
        row.length = (pySplit ((pySplit "Ы | Б\nВ | Г" "\n").headD "") " | ").length)
    ∧ add_translated_table "Ы | Б\nВ | Г" = [["Ы", "Б"], ["В", "Г"]] :=
  C7_table_block wC7st wC7el "Ы | Б\nВ | Г" [] rfl rfl

end Translator

namespace Translator

theorem mem_significantIndices_lt (paras : List Para) (x : Nat)
    (hx : x ∈ significantIndices paras) : x < paras.length := by
  unfold significantIndices at hx
  exact List.mem_range.mp (List.mem_of_mem_filter hx)

theorem natGetD_mem (l : List Nat) (n : Nat) (d : Nat) (h : n < l.length) : l.getD n d ∈ l := by
  rw [List.getD_eq_getElem?_getD, List.getElem?_eq_getElem h]
  simpa using List.getElem_mem h

theorem natHeadD_mem (l : List Nat) (d : Nat) (h : l ≠ []) : l.headD d ∈ l := by
  cases l with
  | nil => exact absurd rfl h
  | cons a t => simp [List.headD]

theorem natGetLastD_mem (l : List Nat) (d : Nat) (h : l ≠ []) : l.getLastD d ∈ l := by
  cases l with
  | nil => exact absurd rfl h
  | cons a t =>
    rw [List.getLastD_eq_getLast?, List.getLast?_eq_getLast (a :: t) (by simp)]
    simpa using List.getLast_mem (l := a :: t) (by simp)

theorem foldl_nearerCandidate_mem (target : Int) (sigs : List Nat) :
    ∀ (l : List Nat) (best : Option (Int × Nat)), l ⊆ sigs →
      (∀ p : Int × Nat, best = some p → p.2 ∈ sigs) →
      ∀ p : Int × Nat, l.foldl (nearerCandidate target) best = some p → p.2 ∈ sigs := by
  intro l
  induction l with
  | nil =>
    intro best hsub hb p hp
    exact hb p hp
  | cons j rest ih =>
    intro best hsub hb p hp
    rw [List.foldl_cons] at hp
    refine ih _ (fun x hx => hsub (List.mem_cons_of_mem _ hx)) ?_ p hp
    intro q hq
    cases best with
    | none =>
      simp only [nearerCandidate] at hq
      cases hq
      exact hsub (List.mem_cons_self j rest)
    | some b =>
      obtain ⟨bd, bi⟩ := b
      simp only [nearerCandidate] at hq
      by_cases hlt : |(j : Int) - target| < bd
      · rw [if_pos hlt] at hq
        cases hq
        exact hsub (List.mem_cons_self j rest)
      · rw [if_neg hlt] at hq
        cases hq
        exact hb (bd, bi) rfl

theorem find_nearest_mem (target : Int) (sigs : List Nat) (c : Nat)
    (h : find_nearest_significant_paragraph target sigs = some c) : c ∈ sigs := by
  unfold find_nearest_significant_paragraph at h
  cases hres : sigs.foldl (nearerCandidate target) none with
  | none => rw [hres] at h; cases h
  | some p =>
    rw [hres] at h
    simp only [Option.map_some'] at h
    cases h
    exact foldl_nearerCandidate_mem target sigs sigs none (fun _ hx => hx)
      (fun q hq => by cases hq) p hres

theorem lastThirdSlice_subset (sigs : List Nat) : lastThirdSlice sigs ⊆ sigs := by
  unfold lastThirdSlice
  split
  · exact List.drop_subset ..
  · exact fun _ h => h

theorem firstThirdSlice_subset (sigs : List Nat) : firstThirdSlice sigs ⊆ sigs := by
  unfold firstThirdSlice
  split
  · exact List.take_subset ..
  · exact fun _ h => h

theorem lastThirdSlice_ne_nil (sigs : List Nat) (h : sigs ≠ []) : lastThirdSlice sigs ≠ [] := by
  unfold lastThirdSlice
  split
  · intro hc
    have hlen := congrArg List.length hc
    simp only [List.length_drop, List.length_nil] at hlen
    omega
  · exact h

theorem firstThirdSlice_ne_nil (sigs : List Nat) (h : sigs ≠ []) : firstThirdSlice sigs ≠ [] := by
  unfold firstThirdSlice
  split
  · intro hc
    have hlen := congrArg List.length hc
    simp only [List.length_take, List.length_nil] at hlen
    omega
  · exact h

theorem intelligent_mem (op : Int) (tp : Nat) (sigs : List Nat) (c : Nat)
    (h : intelligent_position_correction op tp sigs = some c) : c ∈ sigs := by
  unfold intelligent_position_correction at h
  by_cases h0 : sigs.isEmpty
  · rw [if_pos h0] at h
    cases h
  rw [if_neg h0] at h
  have hne : sigs ≠ [] := by simpa [List.isEmpty_iff] using h0
  by_cases h1 : op ≥ (tp : Int) ∧ op ≤ 2 * (tp : Int) ∧
      (Int.toNat (Int.tdiv (op * sigs.length) tp)) < sigs.length
  · rw [if_pos h1] at h
    cases h
    exact natGetD_mem _ _ _ h1.2.2
  rw [if_neg h1] at h
  by_cases h2 : 5 * op ≥ 4 * (tp : Int)
  · rw [if_pos h2] at h
    cases h
    exact lastThirdSlice_subset sigs (natHeadD_mem _ 0 (lastThirdSlice_ne_nil sigs hne))
  rw [if_neg h2] at h
  by_cases h3 : 5 * op ≤ (tp : Int)
  · rw [if_pos h3] at h
    cases h
    exact firstThirdSlice_subset sigs (natGetLastD_mem _ 0 (firstThirdSlice_ne_nil sigs hne))
  · rw [if_neg h3] at h
    cases h

theorem validateStage1_range (paras : List Para) (sigs : List Nat)
    (hs : ∀ x ∈ sigs, x < paras.length) (pi0 : Option Int) :
    validateStage1 paras sigs pi0 = none ∨
      ∃ n : Int, validateStage1 paras sigs pi0 = some n ∧ 0 ≤ n ∧ n < (paras.length : Int) := by
  cases pi0 with
  | none => exact Or.inl rfl
  | some pi =>
    simp only [validateStage1]
    by_cases hneg : pi < 0
    · rw [if_pos hneg]
      exact Or.inl rfl
    rw [if_neg hneg]
    by_cases hover : pi ≥ (paras.length : Int)
    · rw [if_pos hover]
      exact Or.inl rfl
    rw [if_neg hover]
    by_cases hsig : (paraSignificant (paras.getD pi.toNat { text := "", hasDrawing := false })
        : Prop)
    · rw [if_pos hsig]
      exact Or.inr ⟨pi, rfl, by omega, by omega⟩
    rw [if_neg hsig]
    cases hfind : find_nearest_significant_paragraph pi sigs with
    | none => exact Or.inl rfl
    | some c =>
      refine Or.inr ⟨(c : Int), rfl, by omega, ?_⟩
      have := hs c (find_nearest_mem pi sigs c hfind)
      omega

theorem validateStage2_range (paras : List Para) (sigs : List Nat)
    (hs : ∀ x ∈ sigs, x < paras.length) (original stage1 : Option Int)
    (h1 : stage1 = none ∨ ∃ n : Int, stage1 = some n ∧ 0 ≤ n ∧ n < (paras.length : Int)) :
    validateStage2 paras.length sigs original stage1 = none ∨
      ∃ n : Int, validateStage2 paras.length sigs original stage1 = some n ∧
        0 ≤ n ∧ n < (paras.length : Int) := by
  cases stage1 with
  | some s =>
    rcases h1 with h | ⟨n, hn, h0, hlt⟩
    · cases h
    · injection hn with hsn
      subst hsn
      simp only [validateStage2]
      exact Or.inr ⟨_, rfl, h0, hlt⟩
  | none =>
    cases original with
    | none => exact Or.inl rfl
    | some op =>
      simp only [validateStage2]
      cases hic : intelligent_position_correction op paras.length sigs with
      | none => exact Or.inl rfl
      | some c =>
        refine Or.inr ⟨(c : Int), rfl, by omega, ?_⟩
        have := hs c (intelligent_mem op paras.length sigs c hic)
        omega

theorem validateImageStage12_range (paras : List Para) (sigs : List Nat)
    (hs : ∀ x ∈ sigs, x < paras.length) (img : ImageElement) :
    anchorInRange paras.length (validateImageStage12 paras sigs img) := by
  unfold validateImageStage12 anchorInRange
  exact validateStage2_range paras sigs hs img.paragraph_index
    (validateStage1 paras sigs img.paragraph_index)
    (validateStage1_range paras sigs hs img.paragraph_index)

theorem foldl_unplacedStep_forall (f : Nat → ImageElement → ImageElement)
    (P : ImageElement → Prop) (hfputs : ∀ k img, P img → P (f k img)) :
    ∀ (l : List ImageElement) (acc : List ImageElement × Nat),
      (∀ x ∈ acc.1, P x) → (∀ img ∈ l, P img) →
      ∀ x ∈ (l.foldl (unplacedStep f) acc).1, P x := by
  intro l
  induction l with
  | nil =>
    intro acc hacc _ x hx
    exact hacc x hx
  | cons i rest ih =>
    intro acc hacc hl x hx
    rw [List.foldl_cons] at hx
    have hi : P i := hl i (List.mem_cons_self i rest)
    have hrest : ∀ img ∈ rest, P img := fun img hm => hl img (List.mem_cons_of_mem _ hm)
    unfold unplacedStep at hx
    by_cases hn : i.paragraph_index.isNone
    · rw [if_pos hn] at hx
      refine ih _ ?_ hrest x hx
      intro y hy
      rcases List.mem_append.mp hy with hy | hy
      · exact hacc y hy
      · rw [List.mem_singleton] at hy
        subst hy
        exact hfputs _ i hi
    · rw [if_neg hn] at hx
      refine ih _ ?_ hrest x hx
      intro y hy
      rcases List.mem_append.mp hy with hy | hy
      · exact hacc y hy
      · rw [List.mem_singleton] at hy
        subst hy
        exact hi

theorem applyToUnplaced_forall (f : Nat → ImageElement → ImageElement)
    (P : ImageElement → Prop) (hfputs : ∀ k img, P img → P (f k img))
    (l : List ImageElement) (hl : ∀ img ∈ l, P img) :
    ∀ x ∈ applyToUnplaced f l, P x := by
  unfold applyToUnplaced
  exact foldl_unplacedStep_forall f P hfputs l ([], 0) (by intro x hx; cases hx) hl

theorem distributeAssign_range (paras : List Para) (sigs : List Nat)
    (hs : ∀ x ∈ sigs, x < paras.length) (uc k : Nat) (img : ImageElement)
    (himg : anchorInRange paras.length img) :
    anchorInRange paras.length (distributeAssign uc sigs k img) := by
  unfold distributeAssign
  by_cases h0 : sigs.isEmpty
  · rw [if_pos h0]
    exact himg
  rw [if_neg h0]
  have hne : sigs ≠ [] := by simpa [List.isEmpty_iff] using h0
  have hlen : 0 < sigs.length := List.length_pos.mpr hne
  by_cases htlt : min ((k + 1) * max (sigs.length / (uc + 1)) 1) (sigs.length - 1) < sigs.length
  · rw [if_pos htlt]
    refine Or.inr ⟨_, rfl, by omega, ?_⟩
    have := hs _ (natGetD_mem sigs _ 0 htlt)
    omega
  · rw [if_neg htlt]
    exact himg

theorem clusterPoints_subset (sigs : List Nat) (h : sigs ≠ []) :
    clusterPoints sigs ⊆ sigs := by
  unfold clusterPoints
  split
  · rename_i hlen
    intro x hx
    simp only [List.mem_cons, List.not_mem_nil, or_false] at hx
    rcases hx with h1 | h1 | h1 <;> subst h1 <;> apply natGetD_mem <;> omega
  · intro x hx
    simp only [List.mem_cons, List.not_mem_nil, or_false] at hx
    rcases hx with h1 | h1 <;> subst h1
    · exact natHeadD_mem _ _ h
    · exact natGetLastD_mem _ _ h

theorem clusterAssign_range (paras : List Para) (sigs : List Nat)
    (hs : ∀ x ∈ sigs, x < paras.length) (k : Nat) (img : ImageElement)
    (himg : anchorInRange paras.length img) :
    anchorInRange paras.length (clusterAssign sigs k img) := by
  unfold clusterAssign
  by_cases h0 : sigs.isEmpty
  · rw [if_pos h0]
    exact himg
  rw [if_neg h0]
  have hne : sigs ≠ [] := by simpa [List.isEmpty_iff] using h0
  by_cases hk : k < (clusterPoints sigs).length
  · rw [if_pos hk]
    refine Or.inr ⟨_, rfl, by omega, ?_⟩
    have hmem : (clusterPoints sigs).getD k 0 ∈ clusterPoints sigs :=
      natGetD_mem (clusterPoints sigs) k 0 hk
    have := hs _ (clusterPoints_subset sigs hne hmem)
    omega
  · rw [if_neg hk]
    exact himg

/-- C1 (amended): after `_validate_and_correct_image_positions`, every
image's anchor is null or an integer n with 0 ≤ n strictly below the TOTAL
paragraph count of the loaded document - not below the significant-element
count, which the claim states: the validator bounds anchors by
`len(self.document.paragraphs)` and assigns document-order indices of
significant paragraphs, which can be at or beyond the significant COUNT. -/
theorem C1_anchor_in_document_range (paras : List Para) (images : List ImageElement) :
    ∀ img ∈ validate_and_correct_image_positions paras images,
      anchorInRange paras.length img := by
  intro img hmem
  unfold validate_and_correct_image_positions at hmem
  by_cases hemp : images.isEmpty
  · rw [if_pos hemp] at hmem
    rw [List.isEmpty_iff] at hemp
    subst hemp
    cases hmem
  rw [if_neg hemp] at hmem
  simp only at hmem
  have hs : ∀ x ∈ significantIndices paras, x < paras.length :=
    fun x hx => mem_significantIndices_lt paras x hx
  have hcorr : ∀ x ∈ images.map (validateImageStage12 paras (significantIndices paras)),
      anchorInRange paras.length x := by
    intro x hx
    rcases List.mem_map.mp hx with ⟨pre, hpre, rfl⟩
    exact validateImageStage12_range paras (significantIndices paras) hs pre
  by_cases hz : ((images.map (validateImageStage12 paras (significantIndices paras))).filter
      (fun i => i.paragraph_index.isNone)).length = 0
  · rw [if_pos hz] at hmem
    exact hcorr img hmem
  rw [if_neg hz] at hmem
  by_cases hd : determine_distribution_strategy
      ((images.map (validateImageStage12 paras (significantIndices paras))).filter
        (fun i => i.paragraph_index.isNone)).length
      (significantIndices paras).length = "distribute"
  · rw [if_pos hd] at hmem
    exact applyToUnplaced_forall _ _ (fun k x hx => distributeAssign_range paras _ hs _ k x hx)
      _ hcorr img hmem
  rw [if_neg hd] at hmem
  by_cases hc : determine_distribution_strategy
      ((images.map (validateImageStage12 paras (significantIndices paras))).filter
        (fun i => i.paragraph_index.isNone)).length
      (significantIndices paras).length = "cluster"
  · rw [if_pos hc] at hmem
    exact applyToUnplaced_forall _ _ (fun k x hx => clusterAssign_range paras _ hs k x hx)
      _ hcorr img hmem
  · rw [if_neg hc] at hmem
    exact hcorr img hmem

end Translator

namespace Translator

/-- C1 (counterexample): document with an empty paragraph 0 and a text
paragraph 1, image anchored at 1.  Validation keeps the anchor (1 is a valid
document index of a significant paragraph), but the significant-element count
is 1, so the claimed bound anchorIndex < significantElementCount fails. -/
theorem C1_counterexample :
    (validate_and_correct_image_positions cexC1paras [cexC1img]).map
        (fun i => i.paragraph_index) = [some 1]
    ∧ (significantIndices cexC1paras).length = 1
    ∧ ¬ ((1 : Int) < ((significantIndices cexC1paras).length : Int)) := by
  refine ⟨by decide, by decide, by decide⟩

/-- C1 witness: the amended range invariant applied to the concrete
two-paragraph document. -/
theorem C1_anchor_in_document_range_witness :
    anchorInRange cexC1paras.length
      ((validate_and_correct_image_positions cexC1paras [cexC1img]).headD default) :=
  C1_anchor_in_document_range cexC1paras [cexC1img] _ (by decide)

/-- C4 (counterexample): one image with anchor 999 against ten significant
paragraphs.  The final anchor is 6 - not null followed by append-at-end with
final anchor = significantElementCount = 10 as claimed: after range
validation nulls the anchor, `_intelligent_position_correction` reassigns it
(999 is at least 0.8 times the paragraph count), so the distribution stage
sees zero unplaced images and the append-at-end strategy is never applied. -/
theorem C4_counterexample :
    (validate_and_correct_image_positions c4paras [cexC4img]).map
        (fun i => i.paragraph_index) = [some 6]
    ∧ (validate_and_correct_image_positions c4paras [cexC4img]).map
        (fun i => i.paragraph_index) ≠ [some 10]
    ∧ ((validate_and_correct_image_positions c4paras [cexC4img]).filter
        (fun i => i.paragraph_index.isNone)).length = 0 := by
  refine ⟨by decide, by decide, by decide⟩

/-- C4 (amended): with anchor 999 against 10 all-significant paragraphs,
stage 1 reclassifies the anchor to null; the intelligent correction then
fires its late-document strategy (999 is beyond 0.8 of the paragraph count;
the proportional strategy is skipped because 999 is more than twice the
count) and reassigns the image to the head of the last third of the
significant paragraphs, index 6; no image remains unplaced, so no
distribution strategy (in particular not append-at-end) is consulted, and
the final anchor is 6. -/
theorem C4_last_third_reassignment :
    validateStage1 c4paras (significantIndices c4paras) (some 999) = none
    ∧ intelligent_position_correction 999 c4paras.length (significantIndices c4paras) = some 6
    ∧ lastThirdSlice (significantIndices c4paras) = [6, 7, 8, 9]
    ∧ (validate_and_correct_image_positions c4paras [cexC4img]).map
        (fun i => i.paragraph_index) = [some 6] := by
  refine ⟨by decide, by decide, by decide, by decide⟩

end Translator

namespace Translator

theorem keyUpdate_fst (i : String) (idx : Nat) (e : String × Nat) :
    (if e.1 == i then ((i, idx) : String × Nat) else e).1 = e.1 := by
  by_cases h : e.1 = i
  · simp [h]
  · simp [h]

theorem any_keyUpdate (d : List (String × Nat)) (i : String) (idx : Nat) (k : String) :
    (d.map (fun e => if e.1 == i then (i, idx) else e)).any (fun e => e.1 == k)
      = d.any (fun e => e.1 == k) := by
  induction d with
  | nil => rfl
  | cons e rest ih =>
    rw [List.map_cons, List.any_cons, List.any_cons, ih]
    congr 1
    by_cases h : e.1 = i
    · simp [h]
    · simp [h]

theorem dictMem_dictSet (d : List (String × Nat)) (i : String) (idx : Nat) (k : String)
    (hk : dictMem d k = true) : dictMem (dictSet d i idx) k = true := by
  unfold dictSet
  by_cases hm : dictMem d i
  · rw [if_pos hm]
    unfold dictMem at *
    rw [any_keyUpdate]
    exact hk
  · rw [if_neg hm]
    unfold dictMem at *
    rw [List.any_append]
    simp [hk]

theorem find?_keyUpdate_ne (d : List (String × Nat)) (i : String) (idx : Nat) (k : String)
    (hne : k ≠ i) :
    (d.map (fun e => if e.1 == i then (i, idx) else e)).find? (fun e => e.1 == k)
      = d.find? (fun e => e.1 == k) := by
  induction d with
  | nil => rfl
  | cons e rest ih =>
    rw [List.map_cons]
    by_cases hei : e.1 = i
    · rw [show (if e.1 == i then ((i, idx) : String × Nat) else e) = (i, idx) by simp [hei]]
      have h2 : (((i, idx) : String × Nat).1 == k) = false := by
        simp [Ne.symm hne]
      have h3 : (e.1 == k) = false := by
        simp [hei, Ne.symm hne]
      simp only [List.find?_cons, h2, h3]
      exact ih
    · rw [show (if e.1 == i then ((i, idx) : String × Nat) else e) = e by simp [hei]]
      by_cases hek : e.1 = k
      · simp only [List.find?_cons, show (e.1 == k) = true by simp [hek]]
      · simp only [List.find?_cons, show (e.1 == k) = false by simp [hek]]
        exact ih

theorem dictGet_dictSet_ne (d : List (String × Nat)) (i : String) (idx : Nat) (k : String)
    (hne : k ≠ i) : dictGet (dictSet d i idx) k = dictGet d k := by
  unfold dictSet
  by_cases hm : dictMem d i
  · rw [if_pos hm]
    unfold dictGet
    rw [find?_keyUpdate_ne d i idx k hne]
  · rw [if_neg hm]
    unfold dictGet
    rw [List.find?_append]
    have h2 : (((i, idx) : String × Nat).1 == k) = false := by
      simp [Ne.symm hne]
    rw [show List.find? (fun (e : String × Nat) => e.1 == k) [(i, idx)] = none by
      simp only [List.find?_cons, h2, List.find?_nil]]
    cases List.find? (fun (e : String × Nat) => e.1 == k) d <;> rfl

theorem dictGet_dictSet_self (d : List (String × Nat)) (i : String) (idx : Nat) :
    dictGet (dictSet d i idx) i = some idx := by
  unfold dictSet
  by_cases hm : dictMem d i
  · rw [if_pos hm]
    unfold dictGet
    unfold dictMem at hm
    revert hm
    induction d with
    | nil =>
      intro hm
      simp at hm
    | cons e rest ih =>
      intro hm
      rw [List.map_cons]
      by_cases hei : e.1 = i
      · rw [show (if e.1 == i then ((i, idx) : String × Nat) else e) = (i, idx) by simp [hei]]
        simp only [List.find?_cons, show (((i, idx) : String × Nat).1 == i) = true by simp]
        rfl
      · rw [show (if e.1 == i then ((i, idx) : String × Nat) else e) = e by simp [hei]]
        simp only [List.find?_cons, show (e.1 == i) = false by simp [hei]]
        apply ih
        simp only [List.any_cons, Bool.or_eq_true] at hm
        rcases hm with hm | hm
        · simp [hei] at hm
        · exact hm
  · rw [if_neg hm]
    unfold dictGet
    rw [List.find?_append]
    have h1 : List.find? (fun (e : String × Nat) => e.1 == i) d = none := by
      rw [List.find?_eq_none]
      intro x hx hpx
      unfold dictMem at hm
      exact hm (List.any_eq_true.mpr ⟨x, hx, hpx⟩)
    rw [h1]
    rw [show List.find? (fun (e : String × Nat) => e.1 == i) [(i, idx)] = some (i, idx) by
      simp only [List.find?_cons, show (((i, idx) : String × Nat).1 == i) = true by simp]]
    rfl

theorem assignNew_preserves (ids : List String) (idx : Nat) :
    ∀ (d : List (String × Nat)) (k : String), dictMem d k = true →
      dictGet (assignNew ids idx d) k = dictGet d k
      ∧ dictMem (assignNew ids idx d) k = true := by
  induction ids with
  | nil =>
    intro d k hk
    exact ⟨rfl, hk⟩
  | cons i rest ih =>
    intro d k hk
    simp only [assignNew, List.foldl_cons] at *
    by_cases hcond : i ≠ "" ∧ ¬ dictMem d i
    · rw [if_pos hcond]
      have hki : k ≠ i := by
        intro he
        subst he
        exact hcond.2 hk
      have hstep := ih (dictSet d i idx) k (dictMem_dictSet d i idx k hk)
      refine ⟨?_, hstep.2⟩
      rw [hstep.1, dictGet_dictSet_ne d i idx k hki]
    · rw [if_neg hcond]
      exact ih d k hk

theorem assignNewIfImage_preserves (ids : List String) (idx : Nat) :
    ∀ (d : List (String × Nat)) (k : String), dictMem d k = true →
      dictGet (assignNewIfImage ids idx d) k = dictGet d k
      ∧ dictMem (assignNewIfImage ids idx d) k = true := by
  induction ids with
  | nil =>
    intro d k hk
    exact ⟨rfl, hk⟩
  | cons i rest ih =>
    intro d k hk
    simp only [assignNewIfImage, List.foldl_cons] at *
    by_cases hcond : i ≠ "" ∧ ¬ dictMem d i ∧ is_image_relationship i
    · rw [if_pos hcond]
      have hki : k ≠ i := by
        intro he
        subst he
        exact hcond.2.1 hk
      have hstep := ih (dictSet d i idx) k (dictMem_dictSet d i idx k hk)
      refine ⟨?_, hstep.2⟩
      rw [hstep.1, dictGet_dictSet_ne d i idx k hki]
    · rw [if_neg hcond]
      exact ih d k hk

theorem assignAll_get (ids : List String) (idx : Nat) :
    ∀ (d : List (String × Nat)) (k : String), k ≠ "" →
      (k ∈ ids → dictGet (assignAll ids idx d) k = some idx)
      ∧ (k ∉ ids → dictGet (assignAll ids idx d) k = dictGet d k) := by
  induction ids with
  | nil =>
    intro d k hk0
    constructor
    · intro h
      cases h
    · intro _
      rfl
  | cons i rest ih =>
    intro d k hk0
    simp only [assignAll, List.foldl_cons] at *
    constructor
    · intro hmem
      rcases List.mem_cons.mp hmem with rfl | hmem
      · by_cases hrest : k ∈ rest
        · exact (ih _ k hk0).1 hrest
        · rw [(ih _ k hk0).2 hrest, if_pos hk0, dictGet_dictSet_self]
      · exact (ih _ k hk0).1 hmem
    · intro hnmem
      have hki : k ≠ i := fun he => hnmem (he ▸ List.mem_cons_self i rest)
      have hkr : k ∉ rest := fun hr => hnmem (List.mem_cons_of_mem _ hr)
      rw [(ih _ k hk0).2 hkr]
      by_cases hi0 : i ≠ ""
      · rw [if_pos hi0, dictGet_dictSet_ne d i idx k hki]
      · rw [if_neg hi0]

end Translator

namespace Translator

/-- C5 (counterexample): reference rId1 is claimed by the highest-priority
drawing rule in significant paragraph 0 (position 0), and also matched by the
lower-priority legacy-picture rule in significant paragraph 1.  The recorded
position is 1: the legacy-picture rule reassigned an id already claimed by the
more specific drawing rule, so first-match-wins across rule priority does not
hold. -/
theorem C5_counterexample :
    dictGet (parse_document_for_images cexC5paras) "rId1" = some 1
    ∧ ¬ dictGet (parse_document_for_images cexC5paras) "rId1" = some 0 := by
  refine ⟨by decide, by decide⟩

/-- C5 (amended): only the two generic fallback rules respect earlier
claims - the run-embed rule (4) and the generic-attribute rule (5) never
change the position of an id already present in the mapping - while the
drawing, inline-object and legacy-picture rules (1-3) assign unconditionally,
overwriting any earlier claim, so among them the LAST match in scan order
determines the recorded position. -/
theorem C5_rule_priority (ids : List String) (idx : Nat) (d : List (String × Nat))
    (k : String) :
    (dictMem d k = true → dictGet (assignNew ids idx d) k = dictGet d k)
    ∧ (dictMem d k = true → dictGet (assignNewIfImage ids idx d) k = dictGet d k)
    ∧ (k ≠ "" → k ∈ ids → dictGet (assignAll ids idx d) k = some idx) :=
  ⟨fun h => (assignNew_preserves ids idx d k h).1,
   fun h => (assignNewIfImage_preserves ids idx d k h).1,
   fun h0 hm => (assignAll_get ids idx d k h0).1 hm⟩

/-- C5 witness: with rId1 already claimed at position 0, the run-embed rule
leaves it untouched while an unconditional rule overwrites it to 5. -/
theorem C5_rule_priority_witness :
    dictGet (assignNew ["rId1"] 5 [("rId1", 0)]) "rId1" = dictGet [("rId1", 0)] "rId1"
    ∧ dictGet (assignAll ["rId1"] 5 [("rId1", 0)]) "rId1" = some 5 :=
  ⟨(C5_rule_priority ["rId1"] 5 [("rId1", 0)] "rId1").1 (by decide),
   (C5_rule_priority ["rId1"] 5 [("rId1", 0)] "rId1").2.2 (by decide) (by decide)⟩

/-- C9 (counterexample): a package whose relationship table is unparseable
but which holds one PNG media file.  Extraction returns EMPTY mappings but
ONE image (unpositioned), not zero images: the media loop still runs and
catalogues every detectable asset with a null anchor. -/
theorem C9_counterexample :
    (extract_images_from_docx (fun _ => none) (fun _ => none) (some cexC9pkg)).length = 1
    ∧ (extract_images_from_docx (fun _ => none) (fun _ => none) (some cexC9pkg)).map
        (fun i => i.paragraph_index) = [none]
    ∧ parse_relationships cexC9pkg.rels_xml = [] := by
  refine ⟨by decide, by decide, by decide⟩

theorem foldl_extractMediaStep_unpositioned (pil_format : List Nat → Option String)
    (pil_dims : List Nat → Option (ℚ × ℚ)) (image_positions : List (String × Nat)) :
    ∀ (mfs : List (String × List Nat)) (acc : List ImageInfo),
      (∀ img ∈ acc, img.rel_id = none ∧ img.paragraph_index = none) →
      ∀ img ∈ mfs.foldl (extractMediaStep pil_format pil_dims [] image_positions) acc,
        img.rel_id = none ∧ img.paragraph_index = none := by
  intro mfs
  induction mfs with
  | nil =>
    intro acc hacc img hm
    exact hacc img hm
  | cons mf rest ih =>
    intro acc hacc img hm
    rw [List.foldl_cons] at hm
    refine ih _ ?_ img hm
    intro x hx
    simp only [extractMediaStep] at hx
    by_cases hf : detect_image_format pil_format mf.2 = "unknown"
    · rw [if_pos hf] at hx
      exact hacc x hx
    · rw [if_neg hf] at hx
      rcases List.mem_append.mp hx with hx | hx
      · exact hacc x hx
      · rw [List.mem_singleton] at hx
        subst hx
        exact ⟨rfl, rfl⟩

/-- C9 (amended): extraction is a total function of the package contents, so
no exception propagates.  When the package cannot be opened at all, the
result is the empty list (zero images).  When only the relationship table is
absent or unparseable, the returned mapping is empty, but the media files are
still catalogued: every returned image then has no relationship id and a null
anchor (the pipeline proceeds with unpositioned images, not with zero
images). -/
theorem C9_degraded_mode (pil_format : List Nat → Option String)
    (pil_dims : List Nat → Option (ℚ × ℚ)) (pkg : Package)
    (hrels : pkg.rels_xml = none) :
    extract_images_from_docx pil_format pil_dims none = []
    ∧ parse_relationships pkg.rels_xml = []
    ∧ ∀ img ∈ extract_images_from_docx pil_format pil_dims (some pkg),
        img.rel_id = none ∧ img.paragraph_index = none := by
  refine ⟨rfl, by rw [hrels]; rfl, ?_⟩
  intro img hm
  simp only [extract_images_from_docx, hrels] at hm
  exact foldl_extractMediaStep_unpositioned pil_format pil_dims
    (parse_document_for_images_opt pkg.document_xml) pkg.media_files []
    (by intro x hx; cases hx) img hm

/-- C9 witness: the degraded-mode theorem applied to the concrete package
with an unparseable relationship table. -/
theorem C9_degraded_mode_witness :
    ((extract_images_from_docx (fun _ => none) (fun _ => none) (some cexC9pkg)).headD
        default).rel_id = none
    ∧ ((extract_images_from_docx (fun _ => none) (fun _ => none) (some cexC9pkg)).headD
        default).paragraph_index = none :=
  (C9_degraded_mode (fun _ => none) (fun _ => none) cexC9pkg rfl).2.2 _ (by decide)

end Translator
